import Mathlib

/-!
# Gregor: the SQL state-machine engine and the gregor1 message merge

A shallow embedding of

* `interface.go`   : the interfaces the engine is written against,
* `storage/schema.go` : the five tables,
* `storage/sql_sm.go` : `SQLEngine` (consume protocol, snapshot query and log query),
* `keybase/protocol/go/extras.go` : the gregor1 message types, their accessors and
  `Merge`.

Conventions of the embedding.

* A value of a Go interface type is represented by what its methods return.
  An interface value that the Go code compares with `nil` is an `Option`;
  `none` is the nil interface.
* Identifiers are byte strings.  `hexEnc` is injective, so an id column is
  represented by the bytes it encodes; column widths and collations are not
  modelled (string comparison is exact).
* Instants are integers (microseconds counted from the zero `time.Time`),
  so `t = 0` is `t.IsZero()`.  Durations are integers in the same unit.
* A table is the list of its rows in insertion order.
* One call reads one clock value `now`.
-/

namespace Gregor

/-! ## interface.go -/

abbrev Bytes := List Nat
abbrev UID := Bytes
abbrev MsgID := Bytes
abbrev DeviceID := Bytes
abbrev Body := Bytes
abbrev Category := String
abbrev Time := Int
abbrev Duration := Int

abbrev InBandMsgType := Int
def InBandMsgTypeNone : InBandMsgType := 0
def InBandMsgTypeUpdate : InBandMsgType := 1
def InBandMsgTypeSync : InBandMsgType := 2

/-- The interface `TimeOrOffset`: `Time() *time.Time` and
`Offset() *time.Duration`. -/
structure TimeOrOffset where
  Time : Option Time
  Offset : Option Duration
  deriving DecidableEq, Repr

/-- The interface `Metadata`.  `UID`, `MsgID` and `DeviceID` may be nil. -/
structure Metadata where
  UID : Option UID
  MsgID : Option MsgID
  CTime : Time
  DeviceID : Option DeviceID
  InBandMsgType : InBandMsgType
  deriving DecidableEq, Repr

/-- Modelled from the spec: `Metadata.SetCTime`, declared in `interface.go`
and implemented nowhere under the sources.  The assigned ctime is written
back into the caller's Metadata, so that downstream steps see a concrete
ctime. -/
def Metadata.SetCTime (md : Metadata) (t : Time) : Metadata :=
  { md with CTime := t }

/-- The interface `Item`.  An entry of `NotifyTimes` may be nil.  `Category()` and `Body()`
are values: the engine calls `String()` and `Bytes()` on them with no test for nil, and an
Item that returns a nil one makes `consumeCreation` panic where a nil MsgID does, before
the row of the item is written. -/
structure Item where
  Metadata : Metadata
  DTime : Option TimeOrOffset
  NotifyTimes : List (Option TimeOrOffset)
  Body : Body
  Category : Category
  deriving DecidableEq, Repr

/-- The interface `MsgRange`.  `Category()` is a value: the engine calls `String()` on it
with no test for nil. -/
structure MsgRange where
  EndTime : Option TimeOrOffset
  Category : Category
  deriving DecidableEq, Repr

/-- The interface `Dismissal`.  The ids in the list are not nil, and the methods return: the
engine passes every id to `hexEnc` and calls both methods with no test, so that a nil id,
or a Dismissal that holds a nil pointer, is a panic inside the dismissal steps. -/
structure Dismissal where
  MsgIDsToDismiss : List MsgID
  RangesToDismiss : List MsgRange
  deriving DecidableEq, Repr

/-- The interface `StateUpdateMessage`. -/
structure StateUpdateMessage where
  Metadata : Metadata
  Creation : Option Item
  Dismissal : Option Dismissal
  deriving DecidableEq, Repr

/-- The interface `StateSyncMessage`. -/
structure StateSyncMessage where
  Metadata : Metadata
  deriving DecidableEq, Repr

/-- The interface `InBandMessage` (without `Merge`, which the engine calls
only when it reads the log). -/
structure InBandMessage where
  Metadata : Metadata
  ToStateUpdateMessage : Option StateUpdateMessage
  ToStateSyncMessage : Option StateSyncMessage
  deriving DecidableEq, Repr

/-- The interface `OutOfBandMessage`. -/
structure OutOfBandMessage where
  System : String
  UID : Option UID
  Body : Body
  deriving DecidableEq, Repr

/-- The interface `Message`. -/
structure Message where
  ToInBandMessage : Option InBandMessage
  ToOutOfBandMessage : Option OutOfBandMessage
  deriving DecidableEq, Repr

/-- The interface `State`, as `MakeState` builds it from the items. -/
structure State where
  Items : List Item
  deriving DecidableEq, Repr

/-! ## storage/schema.go -/

/-- A row of `messages`; `ctime` and `mtype` are NOT NULL, `devid` may be
NULL.  PRIMARY KEY(uid, msgid). -/
structure MessageRow where
  uid : UID
  msgid : MsgID
  ctime : Time
  devid : Option DeviceID
  mtype : Int
  deriving DecidableEq, Repr

/-- A row of `items`; `dtime` may be NULL.  PRIMARY KEY(uid, msgid),
FOREIGN KEY(uid, msgid) REFERENCES messages. -/
structure ItemRow where
  uid : UID
  msgid : MsgID
  category : Category
  dtime : Option Time
  body : Body
  deriving DecidableEq, Repr

/-- A row of `reminders`. -/
structure ReminderRow where
  uid : UID
  msgid : MsgID
  ntime : Time
  deriving DecidableEq, Repr

/-- A row of `dismissals_by_id`.  PRIMARY KEY(uid, msgid, dmsgid),
FOREIGN KEY(uid, msgid) REFERENCES messages. -/
structure DismissalByIDRow where
  uid : UID
  msgid : MsgID
  dmsgid : MsgID
  deriving DecidableEq, Repr

/-- A row of `dismissals_by_time`.  PRIMARY KEY(uid, msgid, category,
dtime), FOREIGN KEY(uid, msgid) REFERENCES messages. -/
structure DismissalByTimeRow where
  uid : UID
  msgid : MsgID
  category : Category
  dtime : Time
  deriving DecidableEq, Repr

/-- The five tables of `schema`. -/
structure Store where
  messages : List MessageRow
  items : List ItemRow
  reminders : List ReminderRow
  dismissals_by_id : List DismissalByIDRow
  dismissals_by_time : List DismissalByTimeRow
  deriving DecidableEq, Repr

def Store.empty : Store := ⟨[], [], [], [], []⟩

/-- Does `messages` hold a row with this key? -/
def Store.hasMessage (s : Store) (u : UID) (m : MsgID) : Bool :=
  s.messages.any (fun r => decide (r.uid = u ∧ r.msgid = m))

/-- The SQL `INSERT INTO messages`: refused on a duplicate primary key. -/
def Store.insertMessage (s : Store) (r : MessageRow) : Except String Store :=
  if s.hasMessage r.uid r.msgid then .error "messages: duplicate primary key"
  else .ok { s with messages := s.messages ++ [r] }

/-- The SQL `INSERT INTO items(uid, msgid, category, body, dtime)`: refused on a
duplicate primary key or a missing parent row in `messages`. -/
def Store.insertItem (s : Store) (r : ItemRow) : Except String Store :=
  if s.items.any (fun i => decide (i.uid = r.uid ∧ i.msgid = r.msgid)) then
    .error "items: duplicate primary key"
  else if !s.hasMessage r.uid r.msgid then
    .error "items: foreign key"
  else .ok { s with items := s.items ++ [r] }

/-- The SQL `INSERT INTO dismissals_by_id(uid, msgid, dmsgid)`. -/
def Store.insertDismissalByID (s : Store) (r : DismissalByIDRow) : Except String Store :=
  if s.dismissals_by_id.any (fun d => decide (d = r)) then
    .error "dismissals_by_id: duplicate primary key"
  else if !s.hasMessage r.uid r.msgid then
    .error "dismissals_by_id: foreign key"
  else .ok { s with dismissals_by_id := s.dismissals_by_id ++ [r] }

/-- The SQL `INSERT INTO dismissals_by_time(uid, msgid, category, dtime)`. -/
def Store.insertDismissalByTime (s : Store) (r : DismissalByTimeRow) : Except String Store :=
  if s.dismissals_by_time.any (fun d => decide (d = r)) then
    .error "dismissals_by_time: duplicate primary key"
  else if !s.hasMessage r.uid r.msgid then
    .error "dismissals_by_time: foreign key"
  else .ok { s with dismissals_by_time := s.dismissals_by_time ++ [r] }

/-- The SQL `UPDATE items SET dtime=? WHERE uid=? AND msgid=?`. -/
def Store.updateDTimeByID (s : Store) (dtime : Time) (u : UID) (m : MsgID) : Store :=
  { s with items := s.items.map (fun i =>
      if i.uid = u ∧ i.msgid = m then { i with dtime := some dtime } else i) }

/-- The rows of `SELECT msgid FROM messages WHERE uid=? AND ctime<=E`; the
comparison with a NULL `E` holds for no row. -/
def Store.msgidsUpTo (s : Store) (u : UID) (e : Option Time) : List MsgID :=
  (s.messages.filter (fun r =>
    decide (r.uid = u) && (match e with
      | some t => decide (r.ctime ≤ t)
      | none => false))).map (fun r => r.msgid)

/-- The SQL `UPDATE items SET dtime=? WHERE uid=? AND category=? AND msgid IN
(SELECT msgid FROM messages WHERE uid=? AND ctime<=E)`. -/
def Store.updateDTimeByRange (s : Store) (dtime : Time) (u : UID) (c : Category)
    (e : Option Time) : Store :=
  { s with items := s.items.map (fun i =>
      if i.uid = u ∧ i.category = c ∧ i.msgid ∈ s.msgidsUpTo u e then
        { i with dtime := some dtime } else i) }

/-! ## storage/sql_sm.go -/

/-- The interface `sqlTimeWriter`, the SQL dialect the engine is given.  Its
implementations are not among the sources, so the engine takes it as a
parameter.  Each operation is represented by the value the SQL it emits
evaluates to when the clock reads `now`; `none` is SQL NULL. -/
structure sqlTimeWriter where
  Now : Time → Option Time
  TimeOrOffset : Time → Option TimeOrOffset → Option Time
  TimeArg : Time → Time

/-- What the spec requires of a dialect: `Now` evaluates to the current
instant, `TimeOrOffset` to the literal instant of an absolute value and to
`now + offset` for a relative one, and `TimeArg` binds an instant for exact
equality.  Nothing is required for a value that is neither. -/
structure sqlTimeWriter.Lawful (stw : sqlTimeWriter) : Prop where
  now_eq : ∀ now, stw.Now now = some now
  absolute : ∀ now t, stw.TimeOrOffset now (some ⟨some t, none⟩) = some t
  relative : ∀ now d, stw.TimeOrOffset now (some ⟨none, some d⟩) = some (now + d)
  timeArg : ∀ t, stw.TimeArg t = t

/-- Modelled from the spec: a time dialect (section 4.2); `TimeOrOffset`
evaluates to the literal instant, or to `now + offset`, or to `now` if the
value is zero or absent. -/
def specTimeWriter : sqlTimeWriter where
  Now := fun now => some now
  TimeOrOffset := fun now too =>
    match too with
    | some ⟨some t, _⟩ => some t
    | some ⟨none, some d⟩ => some (now + d)
    | _ => some now
  TimeArg := fun t => t

/-- What a step of the engine leaves: a value, a returned error, or a Go
panic (a method called on a nil interface). -/
inductive Result (α : Type) where
  | ok (a : α)
  | err (msg : String)
  | panic
  deriving DecidableEq, Repr

/-- What the driver does on `Begin` and `Commit`, and the clock. -/
structure Env where
  now : Time
  beginErr : Option String
  commitErr : Option String
  deriving DecidableEq, Repr

/-- The loop over `i.NotifyTimes()` of `consumeCreation`: a nil entry is
skipped; for any other the statement
`INSERT INTO items(uid, msgid, ntime)` names a column that `items` does not
have, and `Exec` returns the error of `Prepare`. -/
def consumeNotifyTimes (tx : Store) : List (Option TimeOrOffset) → Except String Store
  | [] => .ok tx
  | none :: rest => consumeNotifyTimes tx rest
  | some _ :: _ => .error "items: unknown column ntime"

/-- Go `SQLEngine.consumeCreation`.  `hexEnc(u)` and `hexEnc(md.MsgID())` are
evaluated before anything is written and panic on nil. -/
def consumeCreation (stw : sqlTimeWriter) (now : Time) (tx : Store) (u : Option UID)
    (i : Item) : Result Store :=
  let md := i.Metadata
  match u, md.MsgID with
  | some uid, some mid =>
    match tx.insertItem ⟨uid, mid, i.Category, stw.TimeOrOffset now i.DTime, i.Body⟩ with
    | .error e => .err e
    | .ok tx1 =>
      match consumeNotifyTimes tx1 i.NotifyTimes with
      | .error e => .err e
      | .ok tx2 => .ok tx2
  | _, _ => .panic

/-- The loop of `consumeMsgIDsToDismiss`. -/
def dismissMsgIDsLoop (tx : Store) (hexUID : UID) (hexMID : MsgID) (ctimeArg : Time) :
    List MsgID → Except String Store
  | [] => .ok tx
  | dmid :: rest =>
    match tx.insertDismissalByID ⟨hexUID, hexMID, dmid⟩ with
    | .error e => .error e
    | .ok tx1 => dismissMsgIDsLoop (tx1.updateDTimeByID ctimeArg hexUID dmid) hexUID hexMID
        ctimeArg rest

/-- Go `SQLEngine.consumeMsgIDsToDismiss`. -/
def consumeMsgIDsToDismiss (stw : sqlTimeWriter) (tx : Store) (u : Option UID)
    (mid : Option MsgID) (dmids : List MsgID) (ctime : Time) : Result Store :=
  let ctimeArg := stw.TimeArg ctime
  match u, mid with
  | some hexUID, some hexMID =>
    match dismissMsgIDsLoop tx hexUID hexMID ctimeArg dmids with
    | .error e => .err e
    | .ok tx1 => .ok tx1
  | _, _ => .panic

/-- Go `SQLEngine.ctimeFromMessage`. -/
def ctimeFromMessage (tx : Store) (u : UID) (mid : MsgID) : Except String Time :=
  match tx.messages.find? (fun r => decide (r.uid = u ∧ r.msgid = mid)) with
  | some r => .ok r.ctime
  | none => .error "sql: no rows in result set"

/-- The loop of `consumeRangesToDismiss`; `dtime` of `dismissals_by_time` is
NOT NULL. -/
def dismissRangesLoop (stw : sqlTimeWriter) (now : Time) (tx : Store) (u : UID)
    (mid : MsgID) (ctime : Time) : List MsgRange → Except String Store
  | [] => .ok tx
  | mr :: rest =>
    match stw.TimeOrOffset now mr.EndTime with
    | none => .error "dismissals_by_time: dtime cannot be null"
    | some e =>
      match tx.insertDismissalByTime ⟨u, mid, mr.Category, e⟩ with
      | .error err => .error err
      | .ok tx1 =>
        dismissRangesLoop stw now
          (tx1.updateDTimeByRange (stw.TimeArg ctime) u mr.Category
            (stw.TimeOrOffset now mr.EndTime))
          u mid ctime rest

/-- Go `SQLEngine.consumeRangesToDismiss`; with no range nothing is evaluated,
otherwise `hexEnc(u)` and `hexEnc(mid)` come first. -/
def consumeRangesToDismiss (stw : sqlTimeWriter) (now : Time) (tx : Store) (u : Option UID)
    (mid : Option MsgID) (mrs : List MsgRange) (ctime : Time) : Result Store :=
  match mrs with
  | [] => .ok tx
  | _ :: _ =>
    match u, mid with
    | some uid, some m =>
      match dismissRangesLoop stw now tx uid m ctime mrs with
      | .error e => .err e
      | .ok tx1 => .ok tx1
    | _, _ => .panic

/-- Go `checkMetadataForInsert`; on success the two ids are not nil. -/
def checkMetadataForInsert (m : Metadata) : Except String (UID × MsgID) :=
  match m.MsgID with
  | none => .error "bad metadata; nil MsgID"
  | some mid =>
    match m.UID with
    | none => .error "bad metadata: nil UID"
    | some uid => .ok (uid, mid)

/-- Go `SQLEngine.consumeInBandMessageMetadata`; returns the store of the
transaction and the Metadata after `SetCTime`. -/
def consumeInBandMessageMetadata (stw : sqlTimeWriter) (now : Time) (tx : Store)
    (md : Metadata) (t : InBandMsgType) : Except String (Store × Metadata) :=
  match checkMetadataForInsert md with
  | .error e => .error e
  | .ok (uid, mid) =>
    if t ≠ InBandMsgTypeUpdate ∧ t ≠ InBandMsgTypeSync then
      .error "bad metadata: unrecognized msg type"
    else
      match (if md.CTime = 0 then stw.Now now else some (stw.TimeArg md.CTime)) with
      | none => .error "messages: ctime cannot be null"
      | some c =>
        match tx.insertMessage ⟨uid, mid, c, md.DeviceID, t⟩ with
        | .error e => .error e
        | .ok tx1 =>
          if md.CTime ≠ 0 then .ok (tx1, md)
          else
            match ctimeFromMessage tx1 uid mid with
            | .error e => .error e
            | .ok ctime => .ok (tx1, md.SetCTime ctime)

/-- The statements of `consumeStateUpdateMessage` between `Begin` and the
deferred function: the store of the transaction when the body is left, and
how it is left.  When a step returns an error the store given is the one
before that step; the deferred function does not use it.  A step panics here
on a nil UID or MsgID; the panics of the Go code on the nil values that the
message types leave out (see `Item`, `MsgRange`, `Dismissal`) leave the body
in the same way, with `err` nil and the rows written so far in the
transaction. -/
def consumeStateUpdateBody (stw : sqlTimeWriter) (now : Time) (tx : Store)
    (m : StateUpdateMessage) : Store × Result Unit :=
  match consumeInBandMessageMetadata stw now tx m.Metadata InBandMsgTypeUpdate with
  | .error e => (tx, .err e)
  | .ok (tx1, md) =>
    match (match m.Creation with
           | some c => consumeCreation stw now tx1 md.UID c
           | none => .ok tx1) with
    | .err e => (tx1, .err e)
    | .panic => (tx1, .panic)
    | .ok tx2 =>
      match m.Dismissal with
      | none => (tx2, .ok ())
      | some d =>
        match consumeMsgIDsToDismiss stw tx2 md.UID md.MsgID d.MsgIDsToDismiss md.CTime with
        | .err e => (tx2, .err e)
        | .panic => (tx2, .panic)
        | .ok tx3 =>
          match consumeRangesToDismiss stw now tx3 md.UID md.MsgID d.RangesToDismiss
              md.CTime with
          | .err e => (tx3, .err e)
          | .panic => (tx3, .panic)
          | .ok tx4 => (tx4, .ok ())

/-- The deferred function of `consumeStateUpdateMessage`, run when the body
is left: `Rollback` when `err` is set, `Commit` otherwise (also while a
panic unwinds, when `err` is still nil).  `db` is the committed store, `tx`
the store of the transaction. -/
def consumeStateUpdateDeferred (env : Env) (db tx : Store) (r : Result Unit) :
    Store × Result Unit :=
  match r with
  | .err e => (db, .err e)
  | .ok _ =>
    match env.commitErr with
    | some e => (db, .err e)
    | none => (tx, .ok ())
  | .panic =>
    match env.commitErr with
    | some _ => (db, .panic)
    | none => (tx, .panic)

/-- Go `SQLEngine.consumeStateUpdateMessage`: the committed store afterwards
and what the call returns. -/
def consumeStateUpdateMessage (stw : sqlTimeWriter) (env : Env) (db : Store)
    (m : StateUpdateMessage) : Store × Result Unit :=
  match env.beginErr with
  | some e => (db, .err e)
  | none =>
    let body := consumeStateUpdateBody stw env.now db m
    consumeStateUpdateDeferred env db body.1 body.2

/-- Go `SQLEngine.consumeInBandMessage`. -/
def consumeInBandMessage (stw : sqlTimeWriter) (env : Env) (db : Store)
    (m : InBandMessage) : Store × Result Unit :=
  match m.ToStateUpdateMessage with
  | some su => consumeStateUpdateMessage stw env db su
  | none => (db, .ok ())

/-- Go `SQLEngine.ConsumeMessage`. -/
def ConsumeMessage (stw : sqlTimeWriter) (env : Env) (db : Store) (m : Message) :
    Store × Result Unit :=
  match m.ToInBandMessage with
  | some ibm => consumeInBandMessage stw env db ibm
  | none => (db, .ok ())

/-- Modelled from the spec: `ObjFactory.MakeItem`, whose implementations are
not among the sources: `makeItem(uid, msgid, devid, ctime, category,
dtime?, body)` builds the Item of these values.  The message type is not
among the arguments and stays `InBandMsgTypeNone`; there are no notify
times. -/
def MakeItem (u : UID) (msgid : MsgID) (deviceid : Option DeviceID) (ctime : Time)
    (c : Category) (dtime : Option Time) (body : Body) : Item where
  Metadata := ⟨some u, some msgid, ctime, deviceid, InBandMsgTypeNone⟩
  DTime := dtime.map (fun t => ⟨some t, none⟩)
  NotifyTimes := []
  Body := body
  Category := c

/-- Go `SQLEngine.rowToItem` on a joined row: the scanned columns are
`i.msgid, m.devid, i.category, i.dtime, i.body, m.ctime`. -/
def rowToItem (u : UID) (r : ItemRow × MessageRow) : Item :=
  MakeItem u r.1.msgid r.2.devid r.2.ctime r.1.category r.1.dtime r.1.body

/-- The SQL `FROM items AS i INNER JOIN messages AS m ON (i.uid=m.uid AND
i.msgid=m.msgid)`. -/
def joinItemsMessages (s : Store) : List (ItemRow × MessageRow) :=
  s.items.flatMap (fun i =>
    (s.messages.filter (fun m => decide (i.uid = m.uid ∧ i.msgid = m.msgid))).map
      (fun m => (i, m)))

/-- SQL `a > b` on a non-NULL column `a`: not true when `b` is NULL. -/
def sqlGt (a : Time) (b : Option Time) : Bool :=
  match b with
  | some t => decide (a > t)
  | none => false

/-- SQL `a <= b` on a non-NULL column `a`: not true when `b` is NULL. -/
def sqlLe (a : Time) (b : Option Time) : Bool :=
  match b with
  | some t => decide (a ≤ t)
  | none => false

/-- The SQL `(i.dtime IS NULL OR i.dtime > T)`. -/
def whereDTime (T : Option Time) (r : ItemRow × MessageRow) : Bool :=
  match r.1.dtime with
  | none => true
  | some dt => sqlGt dt T

/-- The SQL `AND (m.devid=? OR m.devid IS NULL)`, appended when `d != nil`. -/
def whereDevice (d : Option DeviceID) (r : ItemRow × MessageRow) : Bool :=
  match d with
  | none => true
  | some dv =>
    match r.2.devid with
    | none => true
    | some rd => decide (rd = dv)

/-- The SQL `AND m.ctime <= T`, appended when `t != nil`. -/
def whereCTime (stw : sqlTimeWriter) (now : Time) (t : Option TimeOrOffset)
    (r : ItemRow × MessageRow) : Bool :=
  match t with
  | none => true
  | some too => sqlLe r.2.ctime (stw.TimeOrOffset now (some too))

/-- The SQL `AND i.msgid=?`, appended when `m != nil`. -/
def whereMsgID (m : Option MsgID) (r : ItemRow × MessageRow) : Bool :=
  match m with
  | none => true
  | some mid => decide (r.1.msgid = mid)

/-- The instant the dtime of an item is compared with: `TimeOrOffset(t)`
when `t != nil`, `Now()` otherwise. -/
def queryTime (stw : sqlTimeWriter) (now : Time) (t : Option TimeOrOffset) : Option Time :=
  match t with
  | some too => stw.TimeOrOffset now (some too)
  | none => stw.Now now

/-- The WHERE clause that `SQLEngine.items` builds. -/
def itemsWhere (stw : sqlTimeWriter) (now : Time) (u : UID) (d : Option DeviceID)
    (t : Option TimeOrOffset) (m : Option MsgID) (r : ItemRow × MessageRow) : Bool :=
  decide (r.1.uid = u) && whereDTime (queryTime stw now t) r && whereDevice d r
    && whereCTime stw now t r && whereMsgID m r

/-- The SQL `ORDER BY m.ctime ASC`; rows of equal ctime keep their order. -/
def orderByCTime (l : List (ItemRow × MessageRow)) : List (ItemRow × MessageRow) :=
  l.insertionSort (fun a b => a.2.ctime ≤ b.2.ctime)

/-- The rows of the query of `SQLEngine.items`, in order. -/
def itemsRows (stw : sqlTimeWriter) (now : Time) (s : Store) (u : UID)
    (d : Option DeviceID) (t : Option TimeOrOffset) (m : Option MsgID) :
    List (ItemRow × MessageRow) :=
  orderByCTime ((joinItemsMessages s).filter (itemsWhere stw now u d t m))

/-- Go `SQLEngine.items`. -/
def items (stw : sqlTimeWriter) (now : Time) (s : Store) (u : UID)
    (d : Option DeviceID) (t : Option TimeOrOffset) (m : Option MsgID) : List Item :=
  (itemsRows stw now s u d t m).map (rowToItem u)

/-- Go `SQLEngine.State`. -/
def SQLEngine.State (stw : sqlTimeWriter) (now : Time) (s : Store) (u : UID)
    (d : Option DeviceID) (t : Option TimeOrOffset) : State :=
  ⟨items stw now s u d t none⟩

end Gregor

/-! ## keybase/protocol/go/extras.go

The declarations of the gregor1 types are generated code that is not among
the sources; their fields are the ones `extras.go` reads and writes, with the
types its expressions force (`Creation_` and `Dismissal_` are compared with
`nil` and dereferenced, so they are pointers, and so on).

A pointer is `none` (nil) or an address.  Objects that are reached through
a pointer live in a heap, in which every address holds an object; a Go
slice is the list of its elements. -/

namespace Gregor1

abbrev Ptr := Option Nat

/-- The struct `TimeOrOffset`. -/
structure TimeOrOffset where
  Time_ : Gregor.Time
  Offset_ : Int
  deriving DecidableEq, Repr

/-- The struct `Metadata`. -/
structure Metadata where
  Uid_ : String
  MsgID_ : Gregor.Bytes
  Ctime_ : TimeOrOffset
  DeviceID_ : String
  InBandMsgType_ : Int
  deriving DecidableEq, Repr

/-- The struct `Item`. -/
structure Item where
  Category_ : String
  Dtime_ : TimeOrOffset
  NotifyTimes_ : List TimeOrOffset
  Body_ : Gregor.Bytes
  deriving DecidableEq, Repr

/-- The struct `MsgRange`. -/
structure MsgRange where
  EndTime_ : TimeOrOffset
  Category_ : String
  deriving DecidableEq, Repr

/-- The struct `Dismissal`. -/
structure Dismissal where
  MsgIDs_ : List Gregor.Bytes
  Ranges_ : List MsgRange
  deriving DecidableEq, Repr

/-- The struct `StateUpdateMessage`; `Creation_` is a `*Item` and
`Dismissal_` a `*Dismissal`. -/
structure StateUpdateMessage where
  Md_ : Metadata
  Creation_ : Ptr
  Dismissal_ : Ptr
  deriving DecidableEq, Repr

/-- The struct `StateSyncMessage`. -/
structure StateSyncMessage where
  Md_ : Metadata
  deriving DecidableEq, Repr

/-- The struct `InBandMessage`; `StateUpdate_` is a `*StateUpdateMessage`
and `StateSync_` a `*StateSyncMessage`. -/
structure InBandMessage where
  StateUpdate_ : Ptr
  StateSync_ : Ptr
  deriving DecidableEq, Repr

/-- The objects behind the pointers. -/
structure Heap where
  items : Nat → Item
  dismissals : Nat → Dismissal
  updates : Nat → StateUpdateMessage
  syncs : Nat → StateSyncMessage

/-- What a call of `Merge` leaves: the returned `error` (`none` is nil), or
a panic on a nil pointer. -/
inductive MergeResult where
  | returned (err : Option String)
  | panic
  deriving DecidableEq, Repr

/-- A value of the interface `gregor.InBandMessage` as `Merge` receives it:
the type assertion `i2.(InBandMessage)` holds for a gregor1 `InBandMessage`
value only. -/
inductive InBandMessageArg where
  | gregor1 (m : InBandMessage)
  | other (typeName : String)
  deriving DecidableEq, Repr

/-- The statement `s.Dismissal_.MsgIDs_ = append(...)`, a write through the pointer. -/
def Heap.setMsgIDs (h : Heap) (d : Nat) (ids : List Gregor.Bytes) : Heap :=
  { h with dismissals := Function.update h.dismissals d { h.dismissals d with MsgIDs_ := ids } }

/-- The statement `s.Dismissal_.Ranges_ = append(...)`, a write through the pointer. -/
def Heap.setRanges (h : Heap) (d : Nat) (rs : List MsgRange) : Heap :=
  { h with dismissals := Function.update h.dismissals d { h.dismissals d with Ranges_ := rs } }

/-- The last statement of `StateUpdateMessage.Merge`, on the receiver `s`
after the creation has been dealt with:
`if s.Dismissal_ == nil { s.Dismissal_ = s2.Dismissal_ } else if
s.Dismissal_ != nil { append MsgIDs_; append Ranges_ }`, then `return nil`. -/
def mergeDismissals (h : Heap) (s : StateUpdateMessage) (p2 : Nat) :
    Heap × StateUpdateMessage × MergeResult :=
  match s.Dismissal_ with
  | none => (h, { s with Dismissal_ := (h.updates p2).Dismissal_ }, .returned none)
  | some d =>
    match (h.updates p2).Dismissal_ with
    | none => (h, s, .panic)
    | some d2 =>
      let h1 := h.setMsgIDs d ((h.dismissals d).MsgIDs_ ++ (h.dismissals d2).MsgIDs_)
      let h2 := h1.setRanges d ((h1.dismissals d).Ranges_ ++ (h1.dismissals d2).Ranges_)
      (h2, s, .returned none)

/-- Go `func (s StateUpdateMessage) Merge(s2 *StateUpdateMessage) error`.  The
receiver `s` is a value: a copy of the caller's struct.  The result is the
heap, the copy as the body leaves it, and what is returned.  A nil `s2`
is dereferenced by the first `s2.Creation_` that is evaluated. -/
def StateUpdateMessage.Merge (h : Heap) (s : StateUpdateMessage) (s2 : Ptr) :
    Heap × StateUpdateMessage × MergeResult :=
  match s2 with
  | none => (h, s, .panic)
  | some p2 =>
    if s.Creation_ ≠ none ∧ (h.updates p2).Creation_ ≠ none then
      (h, s, .returned (some "clash of creations"))
    else
      let s1 := if s.Creation_ = none then { s with Creation_ := (h.updates p2).Creation_ } else s
      mergeDismissals h s1 p2

/-- Go `func (i InBandMessage) Merge(i2 gregor.InBandMessage) error`: the heap
afterwards and what is returned.  `i.StateUpdate_.Merge(..)` copies
`*i.StateUpdate_` into the receiver (a panic when the pointer is nil); the
copy is dropped when the call returns. -/
def InBandMessage.Merge (h : Heap) (i : InBandMessage) (i2 : InBandMessageArg) :
    Heap × MergeResult :=
  match i2 with
  | .other n => (h, .returned (some ("bad merge; wrong type: " ++ n)))
  | .gregor1 t2 =>
    if i.StateSync_ ≠ none ∨ t2.StateSync_ ≠ none then
      (h, .returned (some "Cannot merge sync messages"))
    else
      match i.StateUpdate_ with
      | none => (h, .panic)
      | some p =>
        let r := StateUpdateMessage.Merge h (h.updates p) t2.StateUpdate_
        (r.1, r.2.2)

/-- The conversion `time.Duration(n) * time.Millisecond` on the 64-bit integers of Go: a
`time.Duration` counts nanoseconds and `time.Millisecond` is 1000000 of them; the product
wraps around. -/
def millisecondsToDuration (n : Int) : Int :=
  (n * 1000000 + 2 ^ 63) % 2 ^ 64 - 2 ^ 63

/-- Go `func (t TimeOrOffset) Time() *time.Time`; `none` is nil.  The instant
`keybase1.FromTime(t.Time_)` is represented by `t.Time_` itself. -/
def TimeOrOffset.Time (t : TimeOrOffset) : Option Gregor.Time :=
  if t.Time_ = 0 then none else some t.Time_

/-- Go `func (t TimeOrOffset) Offset() *time.Duration`; `none` is nil. -/
def TimeOrOffset.Offset (t : TimeOrOffset) : Option Int :=
  if t.Offset_ = 0 then none else some (millisecondsToDuration t.Offset_)

/-- Go `func (c Category) Eq(c2 Category) bool`, on the strings. -/
def Category.Eq (c c2 : String) : Bool := decide (c = c2)

/-- The struct `ItemAndMetadata`: `md` is a `*Metadata` and `i` a `*Item`.  The Metadata
behind `md` is written by nobody, so the pointer is represented by its target. -/
structure ItemAndMetadata where
  md : Option Metadata
  i : Ptr
  deriving DecidableEq, Repr

/-- Go `func (i ItemAndMetadata) Metadata() gregor.Metadata`, which is `*i.md`. -/
def ItemAndMetadata.Metadata (i : ItemAndMetadata) : Gregor.Result Metadata :=
  match i.md with
  | none => .panic
  | some md => .ok md

/-- Go `func (i ItemAndMetadata) Body() gregor.Body`, which is `i.i.Body_`. -/
def ItemAndMetadata.Body (h : Heap) (i : ItemAndMetadata) : Gregor.Result Gregor.Bytes :=
  match i.i with
  | none => .panic
  | some p => .ok (h.items p).Body_

/-- Go `func (i ItemAndMetadata) Category() gregor.Category`, which is
`i.i.Category_`. -/
def ItemAndMetadata.Category (h : Heap) (i : ItemAndMetadata) : Gregor.Result String :=
  match i.i with
  | none => .panic
  | some p => .ok (h.items p).Category_

/-- Go `func (i ItemAndMetadata) DTime() gregor.TimeOrOffset`, which is `i.i.Dtime_`. -/
def ItemAndMetadata.DTime (h : Heap) (i : ItemAndMetadata) : Gregor.Result TimeOrOffset :=
  match i.i with
  | none => .panic
  | some p => .ok (h.items p).Dtime_

/-- Go `func (s StateUpdateMessage) Creation() gregor.Item`; `none` is the nil
interface. -/
def StateUpdateMessage.Creation (s : StateUpdateMessage) : Option ItemAndMetadata :=
  if s.Creation_ ≠ none then none
  else some { md := some s.Md_, i := s.Creation_ }

/-- Go `func (s StateUpdateMessage) Dismissal() gregor.Dismissal`; `none` is the nil
interface, `some p` an interface that holds the `*Dismissal` `p`, which may be nil. -/
def StateUpdateMessage.Dismissal (s : StateUpdateMessage) : Option Ptr :=
  if s.Dismissal_ ≠ none then none
  else some s.Dismissal_

/-- Go `func (d Dismissal) MsgIDsToDismiss() []gregor.MsgID`, called on the `*Dismissal`
that an interface holds: the value method dereferences the pointer. -/
def Dismissal.MsgIDsToDismiss (h : Heap) (d : Ptr) : Gregor.Result (List Gregor.Bytes) :=
  match d with
  | none => .panic
  | some p => .ok (h.dismissals p).MsgIDs_

/-- Go `func (d Dismissal) RangesToDismiss() []gregor.MsgRange`, called on the
`*Dismissal` that an interface holds. -/
def Dismissal.RangesToDismiss (h : Heap) (d : Ptr) : Gregor.Result (List MsgRange) :=
  match d with
  | none => .panic
  | some p => .ok (h.dismissals p).Ranges_

/-- Go `func (i InBandMessage) Metadata() gregor.Metadata`; `none` is the nil
interface. -/
def InBandMessage.Metadata (h : Heap) (i : InBandMessage) : Option Metadata :=
  match i.StateUpdate_ with
  | some p => some (h.updates p).Md_
  | none =>
    match i.StateSync_ with
    | some q => some (h.syncs q).Md_
    | none => none

/-- The struct `State`. -/
structure State where
  items : List ItemAndMetadata
  deriving DecidableEq, Repr

/-- Go `func (s State) Items() ([]gregor.Item, error)`; the error is always nil. -/
def State.Items (s : State) : List ItemAndMetadata :=
  s.items.foldl (fun ret i => ret ++ [i]) []

/-- Go `func (i ItemAndMetadata) InCategory(c Category) bool`, which is
`i.i.Category_.Eq(c)`. -/
def ItemAndMetadata.InCategory (h : Heap) (i : ItemAndMetadata) (c : String) :
    Gregor.Result Bool :=
  match i.i with
  | none => .panic
  | some p => .ok (Category.Eq (h.items p).Category_ c)

/-- The loop of `ItemsInCategory` from the items that are left and `ret`. -/
def itemsInCategoryLoop (h : Heap) (c : String) :
    List ItemAndMetadata → List ItemAndMetadata → Gregor.Result (List ItemAndMetadata)
  | [], ret => .ok ret
  | i :: rest, ret =>
    match i.InCategory h c with
    | .ok true => itemsInCategoryLoop h c rest (ret ++ [i])
    | .ok false => itemsInCategoryLoop h c rest ret
    | .err e => .err e
    | .panic => .panic

/-- Go `func (s State) ItemsInCategory(gc gregor.Category) ([]gregor.Item, error)`, with
`gc.String()` for the category; the error is always nil. -/
def State.ItemsInCategory (h : Heap) (s : State) (gc : String) :
    Gregor.Result (List ItemAndMetadata) :=
  itemsInCategoryLoop h gc s.items []

end Gregor1

/-! ## storage/sql_sm.go: the log query

`InBandMessagesSince` reads its rows through `rowToInBandMessage`, which builds gregor1
messages with the object factory.  The factory is not among the sources; the messages it
builds are put into the heap at an address that is free. -/

namespace Gregor

/-- A row of the query of `InBandMessagesSince`: the columns `m.msgid, m.devid, m.ctime,
m.mtype, i.category, i.body, dt.category, dt.dtime, di.dmsgid`, those of a LEFT JOIN
being NULL when no row joins. -/
structure LogRow where
  msgid : MsgID
  devid : Option DeviceID
  ctime : Time
  mtype : Int
  category : Option Category
  body : Option Body
  dCategory : Option Category
  dTime : Option Time
  dMsgID : Option MsgID
  deriving DecidableEq, Repr

/-- The SQL `a LEFT JOIN b ON (...)`: every row of `a` with each row of `b` that joins it,
or with NULLs when none does. -/
def leftJoin {α β : Type} (cond : α → β → Bool) (a : List α) (b : List β) :
    List (α × Option β) :=
  a.flatMap (fun x =>
    match b.filter (cond x) with
    | [] => [(x, none)]
    | y :: ys => (y :: ys).map (fun z => (x, some z)))

/-- The FROM clause of `InBandMessagesSince`: `messages AS m LEFT JOIN items AS i LEFT
JOIN dismissals_by_time AS dt LEFT JOIN dismissals_by_id AS di`, each on uid and
msgid. -/
def logJoin (s : Store) :
    List (((MessageRow × Option ItemRow) × Option DismissalByTimeRow) ×
      Option DismissalByIDRow) :=
  leftJoin (fun r di => decide (r.1.1.uid = di.uid ∧ r.1.1.msgid = di.msgid))
    (leftJoin (fun r dt => decide (r.1.uid = dt.uid ∧ r.1.msgid = dt.msgid))
      (leftJoin (fun m i => decide (m.uid = i.uid ∧ m.msgid = i.msgid)) s.messages s.items)
      s.dismissals_by_time)
    s.dismissals_by_id

/-- SQL `a >= b` on a non-NULL column `a`: not true when `b` is NULL. -/
def sqlGe (a : Time) (b : Option Time) : Bool :=
  match b with
  | some t => decide (a ≥ t)
  | none => false

/-- The WHERE clause of `InBandMessagesSince`: `m.uid=? AND (i.dtime IS NULL OR i.dtime >
now)`, the device predicate when `d != nil`, and `m.ctime >= t`. -/
def logWhere (stw : sqlTimeWriter) (now : Time) (u : UID) (d : Option DeviceID)
    (t : Option TimeOrOffset)
    (r : ((MessageRow × Option ItemRow) × Option DismissalByTimeRow) ×
      Option DismissalByIDRow) : Bool :=
  decide (r.1.1.1.uid = u) &&
    (match r.1.1.2 with
      | none => true
      | some i =>
        match i.dtime with
        | none => true
        | some dt => sqlGt dt (stw.Now now)) &&
    (match d with
      | none => true
      | some dv =>
        match r.1.1.1.devid with
        | none => true
        | some rd => decide (rd = dv)) &&
    sqlGe r.1.1.1.ctime (stw.TimeOrOffset now t)

/-- The columns that `InBandMessagesSince` selects. -/
def logSelect
    (r : ((MessageRow × Option ItemRow) × Option DismissalByTimeRow) ×
      Option DismissalByIDRow) : LogRow where
  msgid := r.1.1.1.msgid
  devid := r.1.1.1.devid
  ctime := r.1.1.1.ctime
  mtype := r.1.1.1.mtype
  category := r.1.1.2.map (fun i => i.category)
  body := r.1.1.2.map (fun i => i.body)
  dCategory := r.1.2.map (fun dt => dt.category)
  dTime := r.1.2.map (fun dt => dt.dtime)
  dMsgID := r.2.map (fun di => di.dmsgid)

/-- The rows of the query of `InBandMessagesSince`, `ORDER BY m.ctime ASC`; rows of equal
ctime keep their order. -/
def logRows (stw : sqlTimeWriter) (now : Time) (s : Store) (u : UID) (d : Option DeviceID)
    (t : Option TimeOrOffset) : List LogRow :=
  (((logJoin s).filter (logWhere stw now u d t)).insertionSort
    (fun a b => a.1.1.1.ctime ≤ b.1.1.1.ctime)).map logSelect

/-- The encoding `hex.EncodeToString`. -/
def hexEncodeToString (b : Bytes) : String :=
  String.mk (b.flatMap (fun x => [Nat.digitChar (x / 16 % 16), Nat.digitChar (x % 16)]))

/-- Modelled from the spec: the Metadata that the gregor1 object factory, which is not
among the sources, builds from `(uid, msgid, devid, ctime, msgType)`.  A gregor1 `UID` or
`DeviceID` is the hex string of its bytes (`Bytes()` decodes it), a nil DeviceID the empty
string. -/
def makeMetadata (u : UID) (msgid : MsgID) (devid : Option DeviceID) (ctime : Time)
    (t : InBandMsgType) : Gregor1.Metadata where
  Uid_ := hexEncodeToString u
  MsgID_ := msgid
  Ctime_ := ⟨ctime, 0⟩
  DeviceID_ := match devid with
    | none => ""
    | some d => hexEncodeToString d
  InBandMsgType_ := t

/-- Modelled from the spec: `MakeItem` followed by `MakeInBandMessageFromItem` of the
gregor1 object factory, `makeInBandMessageFromItem(makeItem(uid, msgid, devid, ctime,
category, dtime?, body))`: a StateUpdate that carries the item as its creation and no
dismissal.  The new objects are put at the free address `a`. -/
def MakeInBandMessageFromItem (h : Gregor1.Heap) (a : Nat) (u : UID) (msgid : MsgID)
    (devid : Option DeviceID) (ctime : Time) (c : Category) (dtime : Option Time)
    (body : Body) : Gregor1.Heap × Gregor1.InBandMessage :=
  ({ h with
      items := Function.update h.items a
        { Category_ := c
          Dtime_ := ⟨dtime.getD 0, 0⟩
          NotifyTimes_ := []
          Body_ := body }
      updates := Function.update h.updates a
        { Md_ := makeMetadata u msgid devid ctime InBandMsgTypeUpdate
          Creation_ := some a
          Dismissal_ := none } },
    { StateUpdate_ := some a, StateSync_ := none })

/-- Modelled from the spec: `MakeDismissalByRange` of the gregor1 object factory,
`makeDismissalByRange(uid, msgid, devid, ctime, category, endTime)`: a StateUpdate with
no creation whose dismissal holds the one range. -/
def MakeDismissalByRange (h : Gregor1.Heap) (a : Nat) (u : UID) (msgid : MsgID)
    (devid : Option DeviceID) (ctime : Time) (c : Category) (d : Time) :
    Gregor1.Heap × Gregor1.InBandMessage :=
  ({ h with
      dismissals := Function.update h.dismissals a
        { MsgIDs_ := [], Ranges_ := [{ EndTime_ := ⟨d, 0⟩, Category_ := c }] }
      updates := Function.update h.updates a
        { Md_ := makeMetadata u msgid devid ctime InBandMsgTypeUpdate
          Creation_ := none
          Dismissal_ := some a } },
    { StateUpdate_ := some a, StateSync_ := none })

/-- Modelled from the spec: `MakeDismissalByID` of the gregor1 object factory,
`makeDismissalByID(uid, msgid, devid, ctime, dmsgid)`: a StateUpdate with no creation
whose dismissal holds the one id. -/
def MakeDismissalByID (h : Gregor1.Heap) (a : Nat) (u : UID) (msgid : MsgID)
    (devid : Option DeviceID) (ctime : Time) (d : MsgID) : Gregor1.Heap × Gregor1.InBandMessage :=
  ({ h with
      dismissals := Function.update h.dismissals a { MsgIDs_ := [d], Ranges_ := [] }
      updates := Function.update h.updates a
        { Md_ := makeMetadata u msgid devid ctime InBandMsgTypeUpdate
          Creation_ := none
          Dismissal_ := some a } },
    { StateUpdate_ := some a, StateSync_ := none })

/-- Modelled from the spec: `MakeStateSyncMessage` of the gregor1 object factory,
`makeStateSyncMessage(uid, msgid, devid, ctime)`. -/
def MakeStateSyncMessage (h : Gregor1.Heap) (a : Nat) (u : UID) (msgid : MsgID)
    (devid : Option DeviceID) (ctime : Time) : Gregor1.Heap × Gregor1.InBandMessage :=
  ({ h with
      syncs := Function.update h.syncs a
        { Md_ := makeMetadata u msgid devid ctime InBandMsgTypeSync } },
    { StateUpdate_ := none, StateSync_ := some a })

/-- Go `SQLEngine.rowToInBandMessage`, the factory putting its objects at the free address
`a`; `none` is the `nil, nil` of the last line.  A scanner of a NULL column is not set, and
a NULL body scans to the empty Body. -/
def rowToInBandMessage (h : Gregor1.Heap) (a : Nat) (u : UID) (row : LogRow) :
    Gregor1.Heap × Option Gregor1.InBandMessage :=
  match row.category with
  | some c =>
    let r := MakeInBandMessageFromItem h a u row.msgid row.devid row.ctime c none
      (row.body.getD [])
    (r.1, some r.2)
  | none =>
    match row.dCategory, row.dTime with
    | some dc, some dt =>
      let r := MakeDismissalByRange h a u row.msgid row.devid row.ctime dc dt
      (r.1, some r.2)
    | _, _ =>
      match row.dMsgID with
      | some dm =>
        let r := MakeDismissalByID h a u row.msgid row.devid row.ctime dm
        (r.1, some r.2)
      | none =>
        if row.mtype = InBandMsgTypeSync then
          let r := MakeStateSyncMessage h a u row.msgid row.devid row.ctime
          (r.1, some r.2)
        else (h, none)

/-- Go `func hexEnc(b byter) string`, on the bytes. -/
def hexEnc (b : Bytes) : String := hexEncodeToString b

/-- The variables of the loop of `InBandMessagesSince`: the heap, the next free address,
`ret`, and the map `lookup` by its entries, the latest first. -/
structure LogState where
  heap : Gregor1.Heap
  next : Nat
  ret : List Gregor1.InBandMessage
  lookup : List (String × Gregor1.InBandMessage)

/-- One turn of the loop of `InBandMessagesSince`.  `ibm.Metadata()` panics when `ibm` is
nil, and `.MsgID()` when the Metadata is. -/
def logStep (u : UID) (st : LogState) (row : LogRow) : Result LogState :=
  match rowToInBandMessage st.heap st.next u row with
  | (_, none) => .panic
  | (h1, some ibm) =>
    match ibm.Metadata h1 with
    | none => .panic
    | some md =>
      let msgIDString := hexEnc md.MsgID_
      match st.lookup.lookup msgIDString with
      | some ibm2 =>
        match ibm2.Merge h1 (.gregor1 ibm) with
        | (h2, .returned none) => .ok { st with heap := h2, next := st.next + 1 }
        | (_, .returned (some e)) => .err e
        | (_, .panic) => .panic
      | none =>
        .ok { heap := h1, next := st.next + 1, ret := st.ret ++ [ibm],
              lookup := (msgIDString, ibm) :: st.lookup }

/-- The loop `for rows.Next()` of `InBandMessagesSince`. -/
def logLoop (u : UID) (st : LogState) : List LogRow → Result LogState
  | [] => .ok st
  | row :: rest =>
    match logStep u st row with
    | .ok st1 => logLoop u st1 rest
    | .err e => .err e
    | .panic => .panic

/-- Go `SQLEngine.InBandMessagesSince`, called with the heap `h` in which the addresses
from `a` on are free: the heap and the messages returned. -/
def InBandMessagesSince (stw : sqlTimeWriter) (now : Time) (s : Store) (h : Gregor1.Heap) (a : Nat)
    (u : UID) (d : Option DeviceID) (t : Option TimeOrOffset) :
    Result (Gregor1.Heap × List Gregor1.InBandMessage) :=
  match logLoop u ⟨h, a, [], []⟩ (logRows stw now s u d t) with
  | .ok st => .ok (st.heap, st.ret)
  | .err e => .err e
  | .panic => .panic

end Gregor

/-! ## Definitions used to state the properties -/

namespace Gregor

/-- The ctime of a consumed message: the supplied one, or the clock's when it is zero. -/
def msgCTime (now : Time) (md : Metadata) : Time :=
  if md.CTime = 0 then now else md.CTime

/-- What the UPDATEs of `consumeMsgIDsToDismiss` do to a row of `items`. -/
def setByIDs (dtime : Time) (u : UID) (dmids : List MsgID) (i : ItemRow) : ItemRow :=
  if i.uid = u ∧ i.msgid ∈ dmids then { i with dtime := some dtime } else i

/-- Is the row of `items` matched by the UPDATE of one of the ranges, the
sub-select being evaluated in store `s`? -/
def inRanges (stw : sqlTimeWriter) (now : Time) (s : Store) (u : UID) (mrs : List MsgRange)
    (i : ItemRow) : Bool :=
  mrs.any (fun mr => decide (i.uid = u ∧ i.category = mr.Category ∧
    i.msgid ∈ s.msgidsUpTo u (stw.TimeOrOffset now mr.EndTime)))

/-- What the UPDATEs of `consumeRangesToDismiss` do to a row of `items`. -/
def setByRanges (stw : sqlTimeWriter) (now : Time) (s : Store) (dtime : Time) (u : UID)
    (mrs : List MsgRange) (i : ItemRow) : ItemRow :=
  if inRanges stw now s u mrs i then { i with dtime := some dtime } else i

/-- The rows that `consumeCreation` appends to `items`. -/
def creationRows (stw : sqlTimeWriter) (now : Time) (uid : UID) (c : Option Item) :
    List ItemRow :=
  match c with
  | none => []
  | some c =>
    match c.Metadata.MsgID with
    | none => []
    | some mid => [⟨uid, mid, c.Category, stw.TimeOrOffset now c.DTime, c.Body⟩]

/-- What the UPDATEs of a dismissal do to a row of `items`, the sub-selects
being evaluated in store `s`. -/
def dismissRow (stw : sqlTimeWriter) (now : Time) (s : Store) (dtime : Time) (uid : UID)
    (d : Option Dismissal) (i : ItemRow) : ItemRow :=
  match d with
  | none => i
  | some d =>
    setByRanges stw now s dtime uid d.RangesToDismiss (setByIDs dtime uid d.MsgIDsToDismiss i)

/-- An item without its dismissal time. -/
def Item.withoutDTime (it : Item) : Item := { it with DTime := none }

/-- A joined row without the dtime of its item. -/
def eraseDTime (r : ItemRow × MessageRow) : ItemRow × MessageRow :=
  ({ r.1 with dtime := none }, r.2)

/-- The WHERE clause of `State(u, nil, t0)` for an absolute `t0`. -/
def visAt (u : UID) (t0 : Time) (r : ItemRow × MessageRow) : Bool :=
  decide (r.1.uid = u) && whereDTime (some t0) r && decide (r.2.ctime ≤ t0)

/-- The rows of the join that the message rows `msgs` give to the item row `i`. -/
def rowsOf (msgs : List MessageRow) (i : ItemRow) : List (ItemRow × MessageRow) :=
  (msgs.filter (fun m => decide (i.uid = m.uid ∧ i.msgid = m.msgid))).map (fun m => (i, m))

/-- The rows of `rowsOf` that `State(u, nil, t0)` selects, without their dtime. -/
def viewOf (u : UID) (t0 : Time) (msgs : List MessageRow) (i : ItemRow) :
    List (ItemRow × MessageRow) :=
  ((rowsOf msgs i).filter (visAt u t0)).map eraseDTime

/-- A message that carries the StateUpdate `su`. -/
def updateMessage (su : StateUpdateMessage) : Message :=
  ⟨some ⟨su.Metadata, some su, none⟩, none⟩

/-- An update of user `[1]` that creates an item of category `cat` under the message's own
id, with an absolute dtime. -/
def exCreation (mid : MsgID) (ctime : Time) (cat : Category) (dtime : Time) :
    StateUpdateMessage :=
  { Metadata := ⟨some [1], some mid, ctime, none, InBandMsgTypeUpdate⟩
    Creation := some
      { Metadata := ⟨some [1], some mid, ctime, none, InBandMsgTypeUpdate⟩
        DTime := some ⟨some dtime, none⟩
        NotifyTimes := []
        Body := [102]
        Category := cat }
    Dismissal := none }

/-- An update of user `[1]` that dismisses by id. -/
def exDismissal (mid : MsgID) (ctime : Time) (ids : List MsgID) : StateUpdateMessage :=
  { Metadata := ⟨some [1], some mid, ctime, none, InBandMsgTypeUpdate⟩
    Creation := none
    Dismissal := some ⟨ids, []⟩ }

/-- The store after message `[7]` created an item at instant 1 that is to expire at
`dtime`. -/
def exStore (dtime : Time) : Store :=
  { messages := [⟨[1], [7], 1, none, 1⟩]
    items := [⟨[1], [7], "foos", some dtime, [102]⟩]
    reminders := []
    dismissals_by_id := []
    dismissals_by_time := [] }

/-- The store `exStore` after message `[8]` of ctime `ctime` dismissed `[7]` by id. -/
def exStoreDismissed (ctime : Time) : Store :=
  { messages := [⟨[1], [7], 1, none, 1⟩, ⟨[1], [8], ctime, none, 1⟩]
    items := [⟨[1], [7], "foos", some ctime, [102]⟩]
    reminders := []
    dismissals_by_id := [⟨[1], [8], [7]⟩]
    dismissals_by_time := [] }

/-- The store after message `[7]`, which carried no creation, was consumed at instant 1. -/
def exStoreNoItem : Store :=
  { messages := [⟨[1], [7], 1, none, 1⟩]
    items := []
    reminders := []
    dismissals_by_id := []
    dismissals_by_time := [] }

/-- An update `[8]` of user `[1]` whose creation carries the MsgID `[7]` in its own
Metadata. -/
def exForeignCreation : StateUpdateMessage :=
  { Metadata := ⟨some [1], some [8], 0, none, InBandMsgTypeUpdate⟩
    Creation := some
      { Metadata := ⟨some [1], some [7], 0, none, InBandMsgTypeUpdate⟩
        DTime := some ⟨some 1000, none⟩
        NotifyTimes := []
        Body := [105]
        Category := "foos" }
    Dismissal := none }

/-- A message that carries a StateSync of user `[1]` with id `[9]`. -/
def exSyncMessage : Message :=
  ⟨some ⟨⟨some [1], some [9], 5, none, InBandMsgTypeSync⟩, none,
    some ⟨⟨some [1], some [9], 5, none, InBandMsgTypeSync⟩⟩⟩, none⟩

/-- A store with two items of user `[1]`: `[7]` for all devices with dtime 6, and `[8]` for
device `[5]` with no dtime. -/
def exStoreDevices : Store :=
  { messages := [⟨[1], [7], 3, none, 1⟩, ⟨[1], [8], 4, some [5], 1⟩]
    items := [⟨[1], [7], "foos", some 6, [102]⟩, ⟨[1], [8], "foos", none, [103]⟩]
    reminders := []
    dismissals_by_id := []
    dismissals_by_time := [] }

/-- The MsgID of a message of the log, `ibm.Metadata().MsgID()`; `none` when the message
has no Metadata. -/
def msgIDOf (h : Gregor1.Heap) (m : Gregor1.InBandMessage) : Option MsgID :=
  (m.Metadata h).map (fun md => md.MsgID_)

/-- The dismissal that a message of the log carries, by its two lists. -/
def dismissalOf (h : Gregor1.Heap) (m : Gregor1.InBandMessage) : Option Gregor1.Dismissal :=
  match m.StateUpdate_ with
  | none => none
  | some p => (h.updates p).Dismissal_.map h.dismissals

/-- What is read off the result of `InBandMessagesSince`: for each message its MsgID and
the dismissal it carries. -/
def logView (r : Result (Gregor1.Heap × List Gregor1.InBandMessage)) :
    Result (List (Option MsgID × Option Gregor1.Dismissal)) :=
  match r with
  | .ok (h, ret) => .ok (ret.map (fun m => (msgIDOf h m, dismissalOf h m)))
  | .err e => .err e
  | .panic => .panic

/-- The elements of a list in the order of their first occurrence, each once. -/
def firstOccurrences {α : Type} [DecidableEq α] : List α → List α
  | [] => []
  | x :: l => x :: (firstOccurrences l).filter (fun y => decide (y ≠ x))

/-- The key of a message of the log, `hexEnc(ibm.Metadata().MsgID())`. -/
def hexOf (h : Gregor1.Heap) (m : Gregor1.InBandMessage) : Option String :=
  (msgIDOf h m).map hexEnc

/-- What the loop of `InBandMessagesSince` keeps true, `seen` being the keys of the rows
read so far: `ret` holds one message for each, in the order of the first occurrence;
`lookup` finds exactly these messages by their key; and every message sits below the
next free address. -/
structure LogInv (st : LogState) (seen : List String) : Prop where
  ret_ids : st.ret.map (hexOf st.heap) = (firstOccurrences seen).map some
  lookup_some : ∀ k e, st.lookup.lookup k = some e → e ∈ st.ret ∧ hexOf st.heap e = some k
  lookup_none : ∀ k, st.lookup.lookup k = none → k ∉ seen
  below : ∀ e ∈ st.ret, (∀ p, e.StateUpdate_ = some p → p < st.next) ∧
    (∀ q, e.StateSync_ = some q → q < st.next)

/-- Three rows of the log query: two of the message `[8]`, which dismisses the ids `[7]`
and `[9]`, and one of the message `[9]`, which creates an item. -/
def exLogRows : List LogRow :=
  [⟨[8], none, 5, 1, none, none, none, none, some [7]⟩,
   ⟨[8], none, 5, 1, none, none, none, none, some [9]⟩,
   ⟨[9], none, 6, 1, some "foos", some [], none, none, none⟩]

/-- An update `[7]` of user `[1]` that carries neither a creation nor a dismissal. -/
def exBareUpdate : StateUpdateMessage :=
  { Metadata := ⟨some [1], some [7], 1, none, InBandMsgTypeUpdate⟩
    Creation := none
    Dismissal := none }

/-- An update `[8]` of user `[1]`, with ctime 5 and no creation, that dismisses the ids
`ids` and the range (foos, 2). -/
def exMixedDismissal (ids : List MsgID) : StateUpdateMessage :=
  { Metadata := ⟨some [1], some [8], 5, none, InBandMsgTypeUpdate⟩
    Creation := none
    Dismissal := some ⟨ids, [⟨some ⟨some 2, none⟩, "foos"⟩]⟩ }

/-- The store after `exMixedDismissal ids` was consumed into the empty store. -/
def exStoreMixed (ids : List MsgID) : Store :=
  { messages := [⟨[1], [8], 5, none, 1⟩]
    items := []
    reminders := []
    dismissals_by_id := ids.map (fun d => ⟨[1], [8], d⟩)
    dismissals_by_time := [⟨[1], [8], "foos", 2⟩] }

end Gregor

namespace Gregor1

/-- An item of category foos. -/
def exItem : Item := ⟨"foos", ⟨0, 0⟩, [], [102]⟩

/-- The Metadata of a message of user `u1`. -/
def exMd (id : Nat) : Metadata := ⟨"u1", [id], ⟨5, 0⟩, "", 1⟩

/-- A heap: update 0 carries nothing, update 1 a creation, update 2 the dismissal 0,
every other update a creation and the dismissal 1. -/
def exHeap : Heap where
  items := fun _ => exItem
  dismissals := fun n => if n = 0 then ⟨[[7]], []⟩ else ⟨[[7], [9]], [⟨⟨2, 0⟩, "foos"⟩]⟩
  updates := fun n =>
    match n with
    | 0 => ⟨exMd 8, none, none⟩
    | 1 => ⟨exMd 8, some 0, none⟩
    | 2 => ⟨exMd 8, none, some 0⟩
    | _ => ⟨exMd 8, some 0, some 1⟩
  syncs := fun _ => ⟨exMd 9⟩

/-- A heap in which no address is in use yet: every address holds a zero object. -/
def zeroHeap : Heap where
  items := fun _ => ⟨"", ⟨0, 0⟩, [], []⟩
  dismissals := fun _ => ⟨[], []⟩
  updates := fun _ => ⟨⟨"", [], ⟨0, 0⟩, "", 0⟩, none, none⟩
  syncs := fun _ => ⟨⟨"", [], ⟨0, 0⟩, "", 0⟩⟩

/-- A heap with the item 0 of category foos and every other item of category bars. -/
def exHeapItems : Heap where
  items := fun n => if n = 0 then exItem else ⟨"bars", ⟨0, 0⟩, [], [103]⟩
  dismissals := fun _ => ⟨[], []⟩
  updates := fun _ => ⟨exMd 8, none, none⟩
  syncs := fun _ => ⟨exMd 9⟩

/-- A state whose one item is what `Creation()` returns for the update 0 of `exHeap`, which
carries no creation: an ItemAndMetadata with a nil `*Item`. -/
def exStateNil : State := ⟨[⟨some (exMd 8), none⟩]⟩

/-- A state with the items 0, 1 and 0 again. -/
def exState : State :=
  ⟨[⟨some (exMd 7), some 0⟩, ⟨some (exMd 8), some 1⟩, ⟨some (exMd 9), some 0⟩]⟩

end Gregor1

/-! ## The snapshot query and the consume protocol -/

namespace Gregor

theorem mem_joinItemsMessages (s : Store) (i : ItemRow) (m : MessageRow) :
    (i, m) ∈ joinItemsMessages s ↔
      i ∈ s.items ∧ m ∈ s.messages ∧ i.uid = m.uid ∧ i.msgid = m.msgid := by
  unfold joinItemsMessages
  simp only [List.mem_flatMap, List.mem_map, List.mem_filter, decide_eq_true_eq, Prod.mk.injEq]
  constructor
  · rintro ⟨a, ha, b, ⟨hb, hk⟩, rfl, rfl⟩
    exact ⟨ha, hb, hk⟩
  · rintro ⟨hi, hm, hk⟩
    exact ⟨i, hi, m, ⟨hm, hk⟩, rfl, rfl⟩

theorem mem_itemsRows (stw : sqlTimeWriter) (now : Time) (s : Store) (u : UID)
    (d : Option DeviceID) (t : Option TimeOrOffset) (mid : Option MsgID)
    (r : ItemRow × MessageRow) :
    r ∈ itemsRows stw now s u d t mid ↔
      r ∈ joinItemsMessages s ∧ itemsWhere stw now u d t mid r = true := by
  unfold itemsRows orderByCTime
  rw [(List.perm_insertionSort _ _).mem_iff, List.mem_filter]

theorem rowToItem_fields {u : UID} {r r' : ItemRow × MessageRow}
    (h : rowToItem u r = rowToItem u r') :
    r.1.msgid = r'.1.msgid ∧ r.2.devid = r'.2.devid ∧ r.2.ctime = r'.2.ctime ∧
      r.1.category = r'.1.category ∧ r.1.dtime = r'.1.dtime ∧ r.1.body = r'.1.body := by
  unfold rowToItem MakeItem at h
  simp only [Item.mk.injEq, Metadata.mk.injEq, Option.some.injEq, true_and, and_true] at h
  obtain ⟨⟨h1, h2, h3⟩, h4, h5, h6⟩ := h
  refine ⟨h1, h3, h2, h6, ?_, h5⟩
  cases hd : r.1.dtime <;> cases hd' : r'.1.dtime <;> simp_all

theorem itemsWhere_congr (stw : sqlTimeWriter) (now : Time) (u : UID)
    (d : Option DeviceID) (t : Option TimeOrOffset) (mid : Option MsgID)
    {r r' : ItemRow × MessageRow} (hu : r.1.uid = r'.1.uid) (hm : r.1.msgid = r'.1.msgid)
    (hd : r.1.dtime = r'.1.dtime) (hv : r.2.devid = r'.2.devid) (hc : r.2.ctime = r'.2.ctime) :
    itemsWhere stw now u d t mid r = itemsWhere stw now u d t mid r' := by
  unfold itemsWhere whereDTime whereDevice whereCTime whereMsgID
  rw [hu, hm, hd, hv, hc]

/-- A joined row of user `u` yields an item of the snapshot exactly when it passes the WHERE clause. -/
theorem rowToItem_mem_State (stw : sqlTimeWriter) (now : Time) (s : Store) (u : UID)
    (d : Option DeviceID) (t : Option TimeOrOffset) (i : ItemRow) (m : MessageRow)
    (hi : i ∈ s.items) (hm : m ∈ s.messages) (hj : i.uid = m.uid ∧ i.msgid = m.msgid)
    (hu : i.uid = u) :
    rowToItem u (i, m) ∈ (SQLEngine.State stw now s u d t).Items ↔
      itemsWhere stw now u d t none (i, m) = true := by
  unfold SQLEngine.State items
  simp only [List.mem_map]
  constructor
  · rintro ⟨r, hr, he⟩
    rw [mem_itemsRows] at hr
    obtain ⟨f1, f2, f3, _, f5, _⟩ := rowToItem_fields he
    have hru : r.1.uid = u := by
      have := hr.2
      unfold itemsWhere at this
      simp only [Bool.and_eq_true, decide_eq_true_eq] at this
      exact this.1.1.1.1
    rw [← @itemsWhere_congr stw now u d t none r (i, m) (by rw [hru, hu]) f1 f5 f2 f3]
    exact hr.2
  · intro h
    exact ⟨(i, m), (mem_itemsRows _ _ _ _ _ _ _ _).2 ⟨(mem_joinItemsMessages _ _ _).2 ⟨hi, hm, hj⟩, h⟩, rfl⟩

theorem hasMessage_eq_false_iff (s : Store) (u : UID) (m : MsgID) :
    s.hasMessage u m = false ↔ ∀ r ∈ s.messages, ¬ (r.uid = u ∧ r.msgid = m) := by
  unfold Store.hasMessage
  simp only [List.any_eq_false, decide_eq_true_eq]

theorem ctimeFromMessage_append (s : Store) (r : MessageRow)
    (h : s.hasMessage r.uid r.msgid = false) :
    ctimeFromMessage { s with messages := s.messages ++ [r] } r.uid r.msgid = .ok r.ctime := by
  unfold ctimeFromMessage
  have hn : s.messages.find? (fun x => decide (x.uid = r.uid ∧ x.msgid = r.msgid)) = none := by
    rw [List.find?_eq_none]
    intro x hx
    simpa using (hasMessage_eq_false_iff s r.uid r.msgid).1 h x hx
  rw [List.find?_append, hn]
  simp

theorem consumeInBandMessageMetadata_ok {stw : sqlTimeWriter} (hl : stw.Lawful) {now : Time}
    {tx tx1 : Store} {md md1 : Metadata} {t : InBandMsgType}
    (h : consumeInBandMessageMetadata stw now tx md t = .ok (tx1, md1)) :
    ∃ uid mid, md.UID = some uid ∧ md.MsgID = some mid ∧ tx.hasMessage uid mid = false ∧
      tx1 = { tx with messages := tx.messages ++ [⟨uid, mid, msgCTime now md, md.DeviceID, t⟩] } ∧
      md1 = { md with CTime := msgCTime now md } := by
  unfold consumeInBandMessageMetadata checkMetadataForInsert at h
  cases hm : md.MsgID with
  | none => simp [hm] at h
  | some mid =>
    cases hu : md.UID with
    | none => simp [hm, hu] at h
    | some uid =>
      simp only [hm, hu] at h
      split at h
      · cases h
      · by_cases hz : md.CTime = 0
        · simp only [hz, if_true, hl.now_eq] at h
          unfold Store.insertMessage at h
          cases hh : tx.hasMessage uid mid with
          | true => simp [hh] at h
          | false =>
            simp only [hh, Bool.false_eq_true, if_false, ne_eq, not_true_eq_false] at h
            have hc := ctimeFromMessage_append tx ⟨uid, mid, now, md.DeviceID, t⟩ hh
            simp only at hc
            rw [hc] at h
            simp only [Except.ok.injEq, Prod.mk.injEq] at h
            refine ⟨uid, mid, rfl, rfl, hh, ?_, ?_⟩
            · simp [msgCTime, hz, ← h.1]
            · rw [← h.2]
              cases md
              simp_all [msgCTime, Metadata.SetCTime]
        · simp only [hz, if_false, hl.timeArg] at h
          unfold Store.insertMessage at h
          cases hh : tx.hasMessage uid mid with
          | true => simp [hh] at h
          | false =>
            simp only [hh, Bool.false_eq_true, if_false, ne_eq] at h
            rw [if_pos hz] at h
            simp only [Except.ok.injEq, Prod.mk.injEq] at h
            refine ⟨uid, mid, rfl, rfl, hh, ?_, ?_⟩
            · simp [msgCTime, hz, ← h.1]
            · rw [← h.2]
              cases md
              simp_all [msgCTime]

theorem insertItem_ok {s s' : Store} {r : ItemRow} (h : s.insertItem r = .ok s') :
    s.hasMessage r.uid r.msgid = true ∧
      (∀ i ∈ s.items, ¬ (i.uid = r.uid ∧ i.msgid = r.msgid)) ∧
      s' = { s with items := s.items ++ [r] } := by
  unfold Store.insertItem at h
  by_cases hpk : (s.items.any fun i => decide (i.uid = r.uid ∧ i.msgid = r.msgid)) = true
  · rw [if_pos hpk] at h
    cases h
  · rw [if_neg hpk] at h
    cases hfk : s.hasMessage r.uid r.msgid with
    | false => simp [hfk] at h
    | true =>
      simp only [hfk, Bool.not_true, Bool.false_eq_true, if_false, Except.ok.injEq] at h
      refine ⟨rfl, ?_, h.symm⟩
      simpa using hpk

theorem insertDismissalByID_ok {s s' : Store} {r : DismissalByIDRow}
    (h : s.insertDismissalByID r = .ok s') :
    s' = { s with dismissals_by_id := s.dismissals_by_id ++ [r] } := by
  unfold Store.insertDismissalByID at h
  split at h
  · cases h
  · split at h
    · cases h
    · simp only [Except.ok.injEq] at h
      exact h.symm

theorem insertDismissalByTime_ok {s s' : Store} {r : DismissalByTimeRow}
    (h : s.insertDismissalByTime r = .ok s') :
    s' = { s with dismissals_by_time := s.dismissals_by_time ++ [r] } := by
  unfold Store.insertDismissalByTime at h
  split at h
  · cases h
  · split at h
    · cases h
    · simp only [Except.ok.injEq] at h
      exact h.symm

theorem consumeNotifyTimes_ok {tx tx' : Store} {l : List (Option TimeOrOffset)}
    (h : consumeNotifyTimes tx l = .ok tx') : tx' = tx ∧ ∀ t ∈ l, t = none := by
  induction l with
  | nil =>
    simp only [consumeNotifyTimes, Except.ok.injEq] at h
    exact ⟨h.symm, by simp⟩
  | cons a l ih =>
    cases a with
    | none =>
      simp only [consumeNotifyTimes] at h
      obtain ⟨h1, h2⟩ := ih h
      exact ⟨h1, by simpa using h2⟩
    | some t => simp [consumeNotifyTimes] at h

theorem consumeCreation_ok {stw : sqlTimeWriter} {now : Time} {tx tx2 : Store} {u : Option UID}
    {c : Item} (h : consumeCreation stw now tx u c = .ok tx2) :
    ∃ uid mid, u = some uid ∧ c.Metadata.MsgID = some mid ∧
      tx.hasMessage uid mid = true ∧
      (∀ i ∈ tx.items, ¬ (i.uid = uid ∧ i.msgid = mid)) ∧
      (∀ t ∈ c.NotifyTimes, t = none) ∧
      tx2 = { tx with items := tx.items ++
        [⟨uid, mid, c.Category, stw.TimeOrOffset now c.DTime, c.Body⟩] } := by
  unfold consumeCreation at h
  cases u with
  | none => simp at h
  | some uid =>
    cases hm : c.Metadata.MsgID with
    | none => simp [hm] at h
    | some mid =>
      simp only [hm] at h
      cases hins : tx.insertItem ⟨uid, mid, c.Category, stw.TimeOrOffset now c.DTime, c.Body⟩ with
      | error e => simp [hins] at h
      | ok tx1 =>
        simp only [hins] at h
        cases hn : consumeNotifyTimes tx1 c.NotifyTimes with
        | error e => simp [hn] at h
        | ok tx3 =>
          simp only [hn, Result.ok.injEq] at h
          obtain ⟨h1, h2⟩ := consumeNotifyTimes_ok hn
          obtain ⟨g1, g2, g3⟩ := insertItem_ok hins
          exact ⟨uid, mid, rfl, rfl, g1, g2, h2, by rw [← h, h1, g3]⟩

theorem dismissMsgIDsLoop_ok {hexUID : UID} {hexMID : MsgID} {ctimeArg : Time}
    (dmids : List MsgID) {tx tx' : Store}
    (h : dismissMsgIDsLoop tx hexUID hexMID ctimeArg dmids = .ok tx') :
    tx'.messages = tx.messages ∧
      tx'.items = tx.items.map (setByIDs ctimeArg hexUID dmids) := by
  induction dmids generalizing tx with
  | nil =>
    simp only [dismissMsgIDsLoop, Except.ok.injEq] at h
    subst h
    refine ⟨rfl, ?_⟩
    have : setByIDs ctimeArg hexUID [] = id := by
      funext i
      simp [setByIDs]
    rw [this, List.map_id]
  | cons dmid rest ih =>
    simp only [dismissMsgIDsLoop] at h
    cases hins : tx.insertDismissalByID ⟨hexUID, hexMID, dmid⟩ with
    | error e => simp [hins] at h
    | ok tx1 =>
      simp only [hins] at h
      obtain ⟨h1, h2⟩ := ih h
      have g := insertDismissalByID_ok hins
      subst g
      refine ⟨by rw [h1]; rfl, ?_⟩
      rw [h2]
      simp only [Store.updateDTimeByID, List.map_map]
      apply List.map_congr_left
      intro i _
      simp only [Function.comp, setByIDs, List.mem_cons]
      by_cases hk : i.uid = hexUID <;> by_cases hd : i.msgid = dmid <;>
        by_cases hr : i.msgid ∈ rest <;> simp [hk, hd, hr]

theorem msgidsUpTo_congr {s s' : Store} (h : s.messages = s'.messages) (u : UID)
    (e : Option Time) : s.msgidsUpTo u e = s'.msgidsUpTo u e := by
  unfold Store.msgidsUpTo
  rw [h]

theorem inRanges_congr (stw : sqlTimeWriter) (now : Time) {s s' : Store}
    (h : s.messages = s'.messages) (u : UID) (mrs : List MsgRange) {i j : ItemRow}
    (hu : i.uid = j.uid) (hm : i.msgid = j.msgid) (hc : i.category = j.category) :
    inRanges stw now s u mrs i = inRanges stw now s' u mrs j := by
  unfold inRanges
  simp only [msgidsUpTo_congr h, hu, hm, hc]

theorem setByRanges_cons (stw : sqlTimeWriter) (now : Time) {txu tx : Store}
    (hm : txu.messages = tx.messages) (dtime : Time) (u : UID) (mr : MsgRange)
    (rest : List MsgRange) (i : ItemRow) :
    setByRanges stw now txu dtime u rest
        (if i.uid = u ∧ i.category = mr.Category ∧
            i.msgid ∈ tx.msgidsUpTo u (stw.TimeOrOffset now mr.EndTime) then
          { i with dtime := some dtime } else i) =
      setByRanges stw now tx dtime u (mr :: rest) i := by
  have hhead : inRanges stw now tx u (mr :: rest) i =
      (decide (i.uid = u ∧ i.category = mr.Category ∧
        i.msgid ∈ tx.msgidsUpTo u (stw.TimeOrOffset now mr.EndTime)) ||
          inRanges stw now tx u rest i) := by
    simp only [inRanges, List.any_cons]
  have hA : inRanges stw now txu u rest
      (if i.uid = u ∧ i.category = mr.Category ∧
          i.msgid ∈ tx.msgidsUpTo u (stw.TimeOrOffset now mr.EndTime) then
        { i with dtime := some dtime } else i) = inRanges stw now tx u rest i := by
    apply inRanges_congr stw now hm u rest <;> split <;> rfl
  unfold setByRanges
  rw [hA, hhead]
  by_cases hk : i.uid = u ∧ i.category = mr.Category ∧
      i.msgid ∈ tx.msgidsUpTo u (stw.TimeOrOffset now mr.EndTime)
  · rw [if_pos hk]
    simp only [hk, and_self, decide_True, Bool.true_or, if_true]
    split <;> rfl
  · rw [if_neg hk]
    simp only [hk, decide_False, Bool.false_or]

theorem updateDTimeByRange_messages (s : Store) (dtime : Time) (u : UID) (c : Category)
    (e : Option Time) : (s.updateDTimeByRange dtime u c e).messages = s.messages := rfl

theorem updateDTimeByRange_items (s : Store) (dtime : Time) (u : UID) (c : Category)
    (e : Option Time) : (s.updateDTimeByRange dtime u c e).items = s.items.map (fun i =>
      if i.uid = u ∧ i.category = c ∧ i.msgid ∈ s.msgidsUpTo u e then
        { i with dtime := some dtime } else i) := rfl

theorem dismissRangesLoop_ok {stw : sqlTimeWriter} {now : Time} {u : UID} {mid : MsgID}
    {ctime : Time} (mrs : List MsgRange) {tx tx' : Store}
    (h : dismissRangesLoop stw now tx u mid ctime mrs = .ok tx') :
    tx'.messages = tx.messages ∧
      tx'.items = tx.items.map (setByRanges stw now tx (stw.TimeArg ctime) u mrs) := by
  induction mrs generalizing tx with
  | nil =>
    simp only [dismissRangesLoop, Except.ok.injEq] at h
    subst h
    refine ⟨rfl, ?_⟩
    have : setByRanges stw now tx (stw.TimeArg ctime) u [] = id := by
      funext i
      simp [setByRanges, inRanges]
    rw [this, List.map_id]
  | cons mr rest ih =>
    simp only [dismissRangesLoop] at h
    cases he : stw.TimeOrOffset now mr.EndTime with
    | none => simp [he] at h
    | some e =>
      simp only [he] at h
      cases hins : tx.insertDismissalByTime ⟨u, mid, mr.Category, e⟩ with
      | error e => simp [hins] at h
      | ok tx1 =>
        simp only [hins] at h
        obtain ⟨h1, h2⟩ := ih h
        have g := insertDismissalByTime_ok hins
        have gm : tx1.messages = tx.messages := by rw [g]
        have gi : tx1.items = tx.items := by rw [g]
        rw [updateDTimeByRange_messages] at h1
        rw [updateDTimeByRange_items, List.map_map, gi] at h2
        refine ⟨h1.trans gm, ?_⟩
        rw [h2]
        apply List.map_congr_left
        intro i _
        simp only [Function.comp, msgidsUpTo_congr gm, ← he]
        exact setByRanges_cons stw now (by rw [updateDTimeByRange_messages, gm])
          (stw.TimeArg ctime) u mr rest i

theorem setByRanges_congr (stw : sqlTimeWriter) (now : Time) {s s' : Store}
    (h : s.messages = s'.messages) (dtime : Time) (u : UID) (mrs : List MsgRange) :
    setByRanges stw now s dtime u mrs = setByRanges stw now s' dtime u mrs := by
  funext i
  unfold setByRanges
  rw [inRanges_congr stw now h u mrs (i := i) (j := i) rfl rfl rfl]

theorem consumeRangesToDismiss_ok {stw : sqlTimeWriter} {now : Time} {u : UID} {mid : MsgID}
    {ctime : Time} (mrs : List MsgRange) {tx tx' : Store}
    (h : consumeRangesToDismiss stw now tx (some u) (some mid) mrs ctime = .ok tx') :
    tx'.messages = tx.messages ∧
      tx'.items = tx.items.map (setByRanges stw now tx (stw.TimeArg ctime) u mrs) := by
  cases mrs with
  | nil =>
    simp only [consumeRangesToDismiss, Result.ok.injEq] at h
    subst h
    refine ⟨rfl, ?_⟩
    have : setByRanges stw now tx (stw.TimeArg ctime) u [] = id := by
      funext i
      simp [setByRanges, inRanges]
    rw [this, List.map_id]
  | cons mr rest =>
    simp only [consumeRangesToDismiss] at h
    cases hl : dismissRangesLoop stw now tx u mid ctime (mr :: rest) with
    | error e => simp [hl] at h
    | ok tx1 =>
      simp only [hl, Result.ok.injEq] at h
      subst h
      exact dismissRangesLoop_ok _ hl

theorem consumeMsgIDsToDismiss_ok {stw : sqlTimeWriter} {u : UID} {mid : MsgID}
    {ctime : Time} (dmids : List MsgID) {tx tx' : Store}
    (h : consumeMsgIDsToDismiss stw tx (some u) (some mid) dmids ctime = .ok tx') :
    tx'.messages = tx.messages ∧
      tx'.items = tx.items.map (setByIDs (stw.TimeArg ctime) u dmids) := by
  simp only [consumeMsgIDsToDismiss] at h
  cases hl : dismissMsgIDsLoop tx u mid (stw.TimeArg ctime) dmids with
  | error e => simp [hl] at h
  | ok tx1 =>
    simp only [hl, Result.ok.injEq] at h
    subst h
    exact dismissMsgIDsLoop_ok _ hl

/-- The creation step of a successful consume. -/
theorem creationStep_ok {stw : sqlTimeWriter} {now : Time} {db tx1 tx2 : Store} {uid : UID}
    {mid : MsgID} {r : MessageRow} (hr : r.uid = uid ∧ r.msgid = mid)
    (htx1 : tx1 = { db with messages := db.messages ++ [r] }) {c : Item}
    (hc : consumeCreation stw now tx1 (some uid) c = .ok tx2) :
    tx2.messages = tx1.messages ∧
      tx2.items = tx1.items ++ creationRows stw now uid (some c) ∧
      ∃ cmid, c.Metadata.MsgID = some cmid ∧
        (cmid = mid ∨ db.hasMessage uid cmid = true) ∧
        (∀ i ∈ db.items, ¬ (i.uid = uid ∧ i.msgid = cmid)) := by
  obtain ⟨uid', cmid, e1, e2, e3, e4, _, e6⟩ := consumeCreation_ok hc
  cases e1
  refine ⟨by rw [e6], by rw [e6]; simp [creationRows, e2], cmid, e2, ?_, ?_⟩
  · by_cases hcm : cmid = mid
    · exact Or.inl hcm
    · right
      rw [htx1] at e3
      unfold Store.hasMessage at e3 ⊢
      simp only [List.any_append, List.any_cons, List.any_nil, Bool.or_false,
        Bool.or_eq_true, decide_eq_true_eq] at e3
      rcases e3 with e3 | e3
      · exact e3
      · exact absurd (hr.2.symm.trans e3.2) (fun h => hcm h.symm)
  · rw [htx1] at e4
    exact e4

/-- The dismissal step of a successful consume. -/
theorem dismissalStep_ok {stw : sqlTimeWriter} (hl : stw.Lawful) {now : Time}
    {tx2 tx3 tx4 : Store} {uid : UID} {mid : MsgID} {ctime : Time} {d : Dismissal}
    (h3 : consumeMsgIDsToDismiss stw tx2 (some uid) (some mid) d.MsgIDsToDismiss ctime
      = .ok tx3)
    (h4 : consumeRangesToDismiss stw now tx3 (some uid) (some mid) d.RangesToDismiss ctime
      = .ok tx4) :
    tx4.messages = tx2.messages ∧
      tx4.items = tx2.items.map (dismissRow stw now tx4 ctime uid (some d)) := by
  obtain ⟨g3m, g3i⟩ := consumeMsgIDsToDismiss_ok _ h3
  obtain ⟨g4m, g4i⟩ := consumeRangesToDismiss_ok _ h4
  rw [hl.timeArg] at g3i g4i
  refine ⟨g4m.trans g3m, ?_⟩
  rw [g4i, g3i, List.map_map]
  apply List.map_congr_left
  intro i _
  simp only [Function.comp, dismissRow]
  rw [setByRanges_congr stw now g4m.symm]

/-- The body of a successful consume, step by step. -/
theorem consumeStateUpdateBody_ok {stw : sqlTimeWriter} (hl : stw.Lawful) {now : Time}
    {db tx : Store} {m : StateUpdateMessage}
    (h : consumeStateUpdateBody stw now db m = (tx, .ok ())) :
    ∃ uid mid, m.Metadata.UID = some uid ∧ m.Metadata.MsgID = some mid ∧
      db.hasMessage uid mid = false ∧
      tx.messages = db.messages ++
        [⟨uid, mid, msgCTime now m.Metadata, m.Metadata.DeviceID, InBandMsgTypeUpdate⟩] ∧
      tx.items = (db.items ++ creationRows stw now uid m.Creation).map
        (dismissRow stw now tx (msgCTime now m.Metadata) uid m.Dismissal) ∧
      (∀ c, m.Creation = some c → ∃ cmid, c.Metadata.MsgID = some cmid ∧
        (cmid = mid ∨ db.hasMessage uid cmid = true) ∧
        (∀ i ∈ db.items, ¬ (i.uid = uid ∧ i.msgid = cmid))) := by
  unfold consumeStateUpdateBody at h
  cases hmd : consumeInBandMessageMetadata stw now db m.Metadata InBandMsgTypeUpdate with
  | error e => simp [hmd] at h
  | ok p =>
    obtain ⟨tx1, md⟩ := p
    obtain ⟨uid, mid, hu, hmid, hfresh, htx1, hmd1⟩ := consumeInBandMessageMetadata_ok hl hmd
    have hmu : md.UID = some uid := by rw [hmd1]; exact hu
    have hmm : md.MsgID = some mid := by rw [hmd1]; exact hmid
    have hmc : md.CTime = msgCTime now m.Metadata := by rw [hmd1]
    simp only [hmd, hmu, hmm, hmc] at h
    refine ⟨uid, mid, hu, hmid, hfresh, ?_⟩
    have h1m : tx1.messages = db.messages ++
        [⟨uid, mid, msgCTime now m.Metadata, m.Metadata.DeviceID, InBandMsgTypeUpdate⟩] := by
      rw [htx1]
    have h1i : tx1.items = db.items := by rw [htx1]
    -- the creation step leaves `tx2`
    have key : ∀ tx2, tx2.messages = tx1.messages →
        tx2.items = tx1.items ++ creationRows stw now uid m.Creation →
        (match m.Dismissal with
          | none => (tx2, Result.ok ())
          | some d =>
            match consumeMsgIDsToDismiss stw tx2 (some uid) (some mid) d.MsgIDsToDismiss
                (msgCTime now m.Metadata) with
            | .err e => (tx2, .err e)
            | .panic => (tx2, .panic)
            | .ok tx3 =>
              match consumeRangesToDismiss stw now tx3 (some uid) (some mid)
                  d.RangesToDismiss (msgCTime now m.Metadata) with
              | .err e => (tx3, .err e)
              | .panic => (tx3, .panic)
              | .ok tx4 => (tx4, .ok ())) = (tx, Result.ok ()) →
        tx.messages = db.messages ++
          [⟨uid, mid, msgCTime now m.Metadata, m.Metadata.DeviceID, InBandMsgTypeUpdate⟩] ∧
        tx.items = (db.items ++ creationRows stw now uid m.Creation).map
          (dismissRow stw now tx (msgCTime now m.Metadata) uid m.Dismissal) := by
      intro tx2 h2m h2i hd
      cases hdis : m.Dismissal with
      | none =>
        simp only [hdis, Prod.mk.injEq, and_true] at hd
        subst hd
        refine ⟨h2m.trans h1m, ?_⟩
        rw [h2i, h1i]
        have hid : dismissRow stw now tx2 (msgCTime now m.Metadata) uid none = id := by
          funext i
          rfl
        rw [hid, List.map_id]
      | some d =>
        simp only [hdis] at hd
        cases h3 : consumeMsgIDsToDismiss stw tx2 (some uid) (some mid) d.MsgIDsToDismiss
            (msgCTime now m.Metadata) with
        | err e => simp [h3] at hd
        | panic => simp [h3] at hd
        | ok tx3 =>
          simp only [h3] at hd
          cases h4 : consumeRangesToDismiss stw now tx3 (some uid) (some mid)
              d.RangesToDismiss (msgCTime now m.Metadata) with
          | err e => simp [h4] at hd
          | panic => simp [h4] at hd
          | ok tx4 =>
            simp only [h4, Prod.mk.injEq, and_true] at hd
            subst hd
            obtain ⟨gm, gi⟩ := dismissalStep_ok hl h3 h4
            exact ⟨gm.trans (h2m.trans h1m), by rw [gi, h2i, h1i]⟩
    cases hcr : m.Creation with
    | none =>
      simp only [hcr] at h
      obtain ⟨k1, k2⟩ := key tx1 rfl (by simp [hcr, creationRows]) h
      rw [hcr] at k2
      exact ⟨k1, k2, by intro c hc; cases hc⟩
    | some c =>
      simp only [hcr] at h
      cases hc : consumeCreation stw now tx1 (some uid) c with
      | err e => simp [hc] at h
      | panic => simp [hc] at h
      | ok tx2 =>
        simp only [hc] at h
        obtain ⟨c1, c2, c3⟩ := creationStep_ok (r := ⟨uid, mid, msgCTime now m.Metadata,
          m.Metadata.DeviceID, InBandMsgTypeUpdate⟩) ⟨rfl, rfl⟩ htx1 hc
        obtain ⟨k1, k2⟩ := key tx2 c1 (by rw [c2, hcr]) h
        rw [hcr] at k2
        refine ⟨k1, k2, ?_⟩
        intro c' hc'
        cases hc'
        exact c3

/-- A successful consume, seen from the committed store. -/
theorem consumeStateUpdateMessage_ok {stw : sqlTimeWriter} {env : Env}
    {db db' : Store} {m : StateUpdateMessage}
    (h : consumeStateUpdateMessage stw env db m = (db', .ok ())) :
    env.beginErr = none ∧ env.commitErr = none ∧
      consumeStateUpdateBody stw env.now db m = (db', .ok ()) := by
  unfold consumeStateUpdateMessage at h
  cases hb : env.beginErr with
  | some e => simp [hb] at h
  | none =>
    simp only [hb] at h
    unfold consumeStateUpdateDeferred at h
    cases hr : (consumeStateUpdateBody stw env.now db m).2 with
    | err e => simp [hr] at h
    | panic =>
      simp only [hr] at h
      cases hc : env.commitErr <;> simp [hc] at h
    | ok u =>
      simp only [hr] at h
      cases hc : env.commitErr with
      | some e => simp [hc] at h
      | none =>
        simp only [hc, Prod.mk.injEq, and_true] at h
        refine ⟨rfl, rfl, ?_⟩
        rw [← h, ← hr]

theorem specTimeWriter_lawful : specTimeWriter.Lawful :=
  ⟨fun _ => rfl, fun _ _ => rfl, fun _ _ => rfl, fun _ => rfl⟩

theorem setByIDs_key (dtime : Time) (u : UID) (dmids : List MsgID) (i : ItemRow) :
    (setByIDs dtime u dmids i).uid = i.uid ∧ (setByIDs dtime u dmids i).msgid = i.msgid ∧
      (setByIDs dtime u dmids i).category = i.category ∧
      (setByIDs dtime u dmids i).body = i.body := by
  unfold setByIDs
  split <;> exact ⟨rfl, rfl, rfl, rfl⟩

theorem setByRanges_key (stw : sqlTimeWriter) (now : Time) (s : Store) (dtime : Time) (u : UID)
    (mrs : List MsgRange) (i : ItemRow) :
    (setByRanges stw now s dtime u mrs i).uid = i.uid ∧
      (setByRanges stw now s dtime u mrs i).msgid = i.msgid ∧
      (setByRanges stw now s dtime u mrs i).category = i.category ∧
      (setByRanges stw now s dtime u mrs i).body = i.body := by
  unfold setByRanges
  split <;> exact ⟨rfl, rfl, rfl, rfl⟩

theorem dismissRow_key (stw : sqlTimeWriter) (now : Time) (s : Store) (dtime : Time) (u : UID)
    (d : Option Dismissal) (i : ItemRow) :
    (dismissRow stw now s dtime u d i).uid = i.uid ∧
      (dismissRow stw now s dtime u d i).msgid = i.msgid ∧
      (dismissRow stw now s dtime u d i).category = i.category ∧
      (dismissRow stw now s dtime u d i).body = i.body := by
  cases d with
  | none => exact ⟨rfl, rfl, rfl, rfl⟩
  | some d =>
    simp only [dismissRow]
    obtain ⟨a1, a2, a3, a4⟩ := setByRanges_key stw now s dtime u d.RangesToDismiss
      (setByIDs dtime u d.MsgIDsToDismiss i)
    obtain ⟨b1, b2, b3, b4⟩ := setByIDs_key dtime u d.MsgIDsToDismiss i
    exact ⟨a1.trans b1, a2.trans b2, a3.trans b3, a4.trans b4⟩

/-- A row is left as it is or its dtime becomes the dismissing ctime. -/
theorem dismissRow_dtime (stw : sqlTimeWriter) (now : Time) (s : Store) (dtime : Time) (u : UID)
    (d : Option Dismissal) (i : ItemRow) :
    dismissRow stw now s dtime u d i = i ∨
      dismissRow stw now s dtime u d i = { i with dtime := some dtime } := by
  cases d with
  | none => exact Or.inl rfl
  | some d =>
    simp only [dismissRow, setByRanges, setByIDs]
    split <;> split <;> simp

theorem dismissRow_byID (stw : sqlTimeWriter) (now : Time) (s : Store) (dtime : Time) (u : UID)
    (d : Dismissal) (i : ItemRow) (hu : i.uid = u) (hm : i.msgid ∈ d.MsgIDsToDismiss) :
    (dismissRow stw now s dtime u (some d) i).dtime = some dtime := by
  simp only [dismissRow, setByRanges, setByIDs, hu, hm, and_self, if_true]
  split <;> rfl

theorem mem_State_rows (stw : sqlTimeWriter) (now : Time) (s : Store) (u : UID)
    (d : Option DeviceID) (t : Option TimeOrOffset) (it : Item)
    (h : it ∈ (SQLEngine.State stw now s u d t).Items) :
    ∃ i m, i ∈ s.items ∧ m ∈ s.messages ∧ i.uid = m.uid ∧ i.msgid = m.msgid ∧
      itemsWhere stw now u d t none (i, m) = true ∧ rowToItem u (i, m) = it := by
  unfold SQLEngine.State items at h
  simp only [List.mem_map] at h
  obtain ⟨⟨i, m⟩, hr, he⟩ := h
  rw [mem_itemsRows, mem_joinItemsMessages] at hr
  exact ⟨i, m, hr.1.1, hr.1.2.1, hr.1.2.2.1, hr.1.2.2.2, hr.2, he⟩

theorem itemsWhere_absolute {stw : sqlTimeWriter} (hl : stw.Lawful) (now : Time) (u : UID)
    (t0 : Time) :
    itemsWhere stw now u none (some ⟨some t0, none⟩) none = visAt u t0 := by
  funext r
  unfold itemsWhere visAt queryTime whereDevice whereCTime whereMsgID sqlLe
  simp only [hl.absolute, Bool.and_true]

theorem rowToItem_eraseDTime (u : UID) (r : ItemRow × MessageRow) :
    (rowToItem u r).withoutDTime = rowToItem u (eraseDTime r) := by
  unfold rowToItem MakeItem Item.withoutDTime eraseDTime
  simp

theorem orderByCTime_eraseDTime (l : List (ItemRow × MessageRow)) :
    (orderByCTime l).map eraseDTime = orderByCTime (l.map eraseDTime) := by
  unfold orderByCTime
  apply List.map_insertionSort
  intro a _ b _
  rfl

/-- The snapshot at an absolute instant, without the dtimes, from the per-item views. -/
theorem State_withoutDTime {stw : sqlTimeWriter} (hl : stw.Lawful) (now : Time) (s : Store)
    (u : UID) (t0 : Time) :
    (SQLEngine.State stw now s u none (some ⟨some t0, none⟩)).Items.map Item.withoutDTime =
      (orderByCTime (s.items.flatMap (viewOf u t0 s.messages))).map (rowToItem u) := by
  unfold SQLEngine.State items itemsRows
  simp only [List.map_map]
  have h1 : (Item.withoutDTime ∘ rowToItem u) = (rowToItem u ∘ eraseDTime) := by
    funext r
    exact rowToItem_eraseDTime u r
  rw [h1, ← List.map_map, orderByCTime_eraseDTime, itemsWhere_absolute hl]
  congr 2
  unfold joinItemsMessages
  rw [List.filter_flatMap, List.map_flatMap]
  rfl

theorem viewOf_append (u : UID) (t0 : Time) (a b : List MessageRow) (i : ItemRow) :
    viewOf u t0 (a ++ b) i = viewOf u t0 a i ++ viewOf u t0 b i := by
  unfold viewOf rowsOf
  simp only [List.filter_append, List.map_append]

theorem viewOf_later (u : UID) (t0 : Time) (nm : MessageRow) (i : ItemRow)
    (h : nm.uid = u → t0 < nm.ctime) : viewOf u t0 [nm] i = [] := by
  unfold viewOf rowsOf
  by_cases hm : i.uid = nm.uid ∧ i.msgid = nm.msgid
  · simp only [List.filter_cons, hm, and_self, decide_True, if_true, List.filter_nil,
      List.map_cons, List.map_nil]
    by_cases hu : i.uid = u
    · have := h (hm.1.symm.trans hu)
      simp [visAt, not_le.2 this]
    · simp [visAt, hu]
  · simp [List.filter_cons, hm]

theorem viewOf_nil_of_no_parent (u : UID) (t0 : Time) (msgs : List MessageRow) (i : ItemRow)
    (h : i.uid = u → ∀ r ∈ msgs, ¬ (i.uid = r.uid ∧ i.msgid = r.msgid)) :
    viewOf u t0 msgs i = [] := by
  induction msgs with
  | nil => rfl
  | cons r rest ih =>
    have hrest := ih (fun hu x hx => h hu x (List.mem_cons_of_mem _ hx))
    have : viewOf u t0 (r :: rest) i = viewOf u t0 [r] i ++ viewOf u t0 rest i :=
      viewOf_append u t0 [r] rest i
    rw [this, hrest, List.append_nil]
    unfold viewOf rowsOf
    by_cases hm : i.uid = r.uid ∧ i.msgid = r.msgid
    · by_cases hu : i.uid = u
      · exact absurd hm (h hu r (List.mem_cons_self _ _))
      · have hu' : ¬ r.uid = u := fun h1 => hu (hm.1.trans h1)
        simp [List.filter_cons, hm, visAt, hu']
    · simp [List.filter_cons, hm]

/-- Two item rows that differ at most in dtime have the same view, if the dtimes agree
on being later than `t0` wherever a parent message of user `u` is old enough. -/
theorem viewOf_congr (u : UID) (t0 : Time) (msgs : List MessageRow) (i j : ItemRow)
    (hu : j.uid = i.uid) (hm : j.msgid = i.msgid) (hc : j.category = i.category)
    (hb : j.body = i.body)
    (hd : i.uid = u → (∃ r ∈ msgs, (i.uid = r.uid ∧ i.msgid = r.msgid) ∧ r.ctime ≤ t0) →
      ∀ r, whereDTime (some t0) (j, r) = whereDTime (some t0) (i, r)) :
    viewOf u t0 msgs j = viewOf u t0 msgs i := by
  induction msgs with
  | nil => rfl
  | cons r rest ih =>
    have e1 : viewOf u t0 (r :: rest) j = viewOf u t0 [r] j ++ viewOf u t0 rest j :=
      viewOf_append u t0 [r] rest j
    have e2 : viewOf u t0 (r :: rest) i = viewOf u t0 [r] i ++ viewOf u t0 rest i :=
      viewOf_append u t0 [r] rest i
    rw [e1, e2, ih (fun h1 ⟨x, hx, hx2⟩ => hd h1 ⟨x, List.mem_cons_of_mem _ hx, hx2⟩)]
    congr 1
    unfold viewOf rowsOf
    rw [hu, hm]
    by_cases hk : i.uid = r.uid ∧ i.msgid = r.msgid
    · simp only [List.filter_cons, hk, and_self, decide_True, if_true, List.filter_nil,
        List.map_cons, List.map_nil]
      have he : eraseDTime (j, r) = eraseDTime (i, r) := by
        unfold eraseDTime
        cases i
        cases j
        simp_all
      by_cases hv : i.uid = u ∧ r.ctime ≤ t0
      · have hw := hd hv.1 ⟨r, List.mem_cons_self _ _, hk, hv.2⟩ r
        have hvis : visAt u t0 (j, r) = visAt u t0 (i, r) := by
          unfold visAt
          unfold whereDTime at hw ⊢
          simp only at hw ⊢
          rw [hu, hw]
        rw [hvis]
        split <;> simp [he]
      · have h1 : visAt u t0 (j, r) = false := by
          unfold visAt
          simp only [hu]
          by_cases h3 : i.uid = u
          · have : ¬ r.ctime ≤ t0 := fun h4 => hv ⟨h3, h4⟩
            simp [this]
          · simp [h3]
        have h2 : visAt u t0 (i, r) = false := by
          unfold visAt
          by_cases h3 : i.uid = u
          · have : ¬ r.ctime ≤ t0 := fun h4 => hv ⟨h3, h4⟩
            simp [this]
          · simp [h3]
        simp [h1, h2]
    · simp [List.filter_cons, hk]

theorem mem_msgidsUpTo_opt (s : Store) (u : UID) (e : Option Time) (x : MsgID) :
    x ∈ s.msgidsUpTo u e ↔
      ∃ r ∈ s.messages, r.uid = u ∧ r.msgid = x ∧ sqlLe r.ctime e = true := by
  unfold Store.msgidsUpTo sqlLe
  simp only [List.mem_map, List.mem_filter, Bool.and_eq_true, decide_eq_true_eq]
  constructor
  · rintro ⟨r, ⟨hr, h1, h2⟩, h3⟩
    exact ⟨r, hr, h1, h3, h2⟩
  · rintro ⟨r, hr, h1, h3, h2⟩
    exact ⟨r, ⟨hr, h1, h2⟩, h3⟩

/-- A row that a dismissal changes is one of its targets. -/
theorem dismissRow_ne (stw : sqlTimeWriter) (now : Time) (s : Store) (dtime : Time) (u : UID)
    (d : Dismissal) (i : ItemRow) (h : dismissRow stw now s dtime u (some d) i ≠ i) :
    i.uid = u ∧ (i.msgid ∈ d.MsgIDsToDismiss ∨ inRanges stw now s u d.RangesToDismiss i = true) := by
  by_cases h1 : i.uid = u ∧ i.msgid ∈ d.MsgIDsToDismiss
  · exact ⟨h1.1, Or.inl h1.2⟩
  · have e1 : setByIDs dtime u d.MsgIDsToDismiss i = i := by
      unfold setByIDs
      rw [if_neg h1]
    by_cases h2 : inRanges stw now s u d.RangesToDismiss i = true
    · refine ⟨?_, Or.inr h2⟩
      unfold inRanges at h2
      rw [List.any_eq_true] at h2
      obtain ⟨mr, _, hmr⟩ := h2
      simp only [decide_eq_true_eq] at hmr
      exact hmr.1
    · exfalso
      apply h
      simp only [dismissRow, e1, setByRanges, h2]
      rfl

/-- The snapshot of `u` at `t0` is not changed by appending a message row, appending item
rows and updating dtimes, under the conditions of a replay-safe consume. -/
theorem view_preserved (u : UID) (t0 : Time) (s s' : Store) (nm : MessageRow)
    (extra : List ItemRow) (f : ItemRow → ItemRow)
    (hm : s'.messages = s.messages ++ [nm]) (hi : s'.items = (s.items ++ extra).map f)
    (hkey : ∀ i, (f i).uid = i.uid ∧ (f i).msgid = i.msgid ∧ (f i).category = i.category ∧
      (f i).body = i.body)
    (hnm : nm.uid = u → t0 < nm.ctime)
    (hextra : ∀ e ∈ extra, e.uid = u → ∀ r ∈ s.messages, ¬ (e.uid = r.uid ∧ e.msgid = r.msgid))
    (hold : ∀ i ∈ s.items, i.uid = u →
      (∃ r ∈ s.messages, (i.uid = r.uid ∧ i.msgid = r.msgid) ∧ r.ctime ≤ t0) →
      ∀ r, whereDTime (some t0) (f i, r) = whereDTime (some t0) (i, r)) :
    s'.items.flatMap (viewOf u t0 s'.messages) = s.items.flatMap (viewOf u t0 s.messages) := by
  rw [hm, hi, List.flatMap_map, List.flatMap_append]
  have hx : extra.flatMap (fun a => viewOf u t0 (s.messages ++ [nm]) (f a)) = [] := by
    rw [List.flatMap_eq_nil_iff]
    intro e he
    obtain ⟨k1, k2, _, _⟩ := hkey e
    rw [viewOf_append, viewOf_later u t0 nm (f e) hnm, List.append_nil]
    apply viewOf_nil_of_no_parent
    intro hu r hr
    rw [k1, k2]
    rw [k1] at hu
    exact hextra e he hu r hr
  rw [hx, List.append_nil]
  apply List.flatMap_congr
  intro i hi'
  obtain ⟨k1, k2, k3, k4⟩ := hkey i
  rw [viewOf_append, viewOf_later u t0 nm (f i) hnm, List.append_nil]
  exact viewOf_congr u t0 s.messages i (f i) k1 k2 k3 k4 (hold i hi')

theorem consumeMsgIDsToDismiss_ne_panic (stw : sqlTimeWriter) (tx : Store) (u : UID)
    (mid : MsgID) (dmids : List MsgID) (ctime : Time) :
    consumeMsgIDsToDismiss stw tx (some u) (some mid) dmids ctime ≠ .panic := by
  simp only [consumeMsgIDsToDismiss]
  cases dismissMsgIDsLoop tx u mid (stw.TimeArg ctime) dmids <;> simp

theorem consumeRangesToDismiss_ne_panic (stw : sqlTimeWriter) (now : Time) (tx : Store)
    (u : UID) (mid : MsgID) (mrs : List MsgRange) (ctime : Time) :
    consumeRangesToDismiss stw now tx (some u) (some mid) mrs ctime ≠ .panic := by
  cases mrs with
  | nil => simp [consumeRangesToDismiss]
  | cons mr rest =>
    simp only [consumeRangesToDismiss]
    cases dismissRangesLoop stw now tx u mid ctime (mr :: rest) <;> simp

/-- The body of a consume that panics has written the message row only. -/
theorem consumeStateUpdateBody_panic {stw : sqlTimeWriter} (hl : stw.Lawful) {now : Time}
    {db tx : Store} {m : StateUpdateMessage}
    (h : consumeStateUpdateBody stw now db m = (tx, .panic)) :
    ∃ uid mid, m.Metadata.UID = some uid ∧ m.Metadata.MsgID = some mid ∧
      db.hasMessage uid mid = false ∧
      tx.messages = db.messages ++
        [⟨uid, mid, msgCTime now m.Metadata, m.Metadata.DeviceID, InBandMsgTypeUpdate⟩] ∧
      tx.items = db.items := by
  unfold consumeStateUpdateBody at h
  cases hmd : consumeInBandMessageMetadata stw now db m.Metadata InBandMsgTypeUpdate with
  | error e => simp [hmd] at h
  | ok p =>
    obtain ⟨tx1, md⟩ := p
    obtain ⟨uid, mid, hu, hmid, hfresh, htx1, hmd1⟩ := consumeInBandMessageMetadata_ok hl hmd
    have hmu : md.UID = some uid := by rw [hmd1]; exact hu
    have hmm : md.MsgID = some mid := by rw [hmd1]; exact hmid
    simp only [hmd, hmu, hmm] at h
    refine ⟨uid, mid, hu, hmid, hfresh, ?_⟩
    have key : ∀ tx2, (match m.Dismissal with
          | none => (tx2, Result.ok ())
          | some d =>
            match consumeMsgIDsToDismiss stw tx2 (some uid) (some mid) d.MsgIDsToDismiss
                md.CTime with
            | .err e => (tx2, .err e)
            | .panic => (tx2, .panic)
            | .ok tx3 =>
              match consumeRangesToDismiss stw now tx3 (some uid) (some mid)
                  d.RangesToDismiss md.CTime with
              | .err e => (tx3, .err e)
              | .panic => (tx3, .panic)
              | .ok tx4 => (tx4, .ok ())) ≠ (tx, Result.panic) := by
      intro tx2 hd
      cases hdis : m.Dismissal with
      | none => simp [hdis] at hd
      | some d =>
        simp only [hdis] at hd
        cases h3 : consumeMsgIDsToDismiss stw tx2 (some uid) (some mid) d.MsgIDsToDismiss
            md.CTime with
        | err e => simp [h3] at hd
        | panic => exact consumeMsgIDsToDismiss_ne_panic _ _ _ _ _ _ h3
        | ok tx3 =>
          simp only [h3] at hd
          cases h4 : consumeRangesToDismiss stw now tx3 (some uid) (some mid)
              d.RangesToDismiss md.CTime with
          | err e => simp [h4] at hd
          | panic => exact consumeRangesToDismiss_ne_panic _ _ _ _ _ _ _ h4
          | ok tx4 => simp [h4] at hd
    cases hcr : m.Creation with
    | none =>
      simp only [hcr] at h
      exact absurd h (key tx1)
    | some c =>
      simp only [hcr] at h
      cases hc : consumeCreation stw now tx1 (some uid) c with
      | err e => simp [hc] at h
      | ok tx2 =>
        simp only [hc] at h
        exact absurd h (key tx2)
      | panic =>
        simp only [hc, Prod.mk.injEq, and_true] at h
        subst h
        rw [htx1]
        exact ⟨rfl, rfl⟩

/-- The committed store after a consume, whatever the outcome: unchanged, or the message
row appended, then maybe the row of the creation, then maybe the dtimes of the dismissal
set. -/
theorem consumeStateUpdateMessage_shape {stw : sqlTimeWriter} (hl : stw.Lawful) (env : Env)
    (db : Store) (m : StateUpdateMessage) :
    (consumeStateUpdateMessage stw env db m).1 = db ∨
    ∃ uid mid C D, m.Metadata.UID = some uid ∧ m.Metadata.MsgID = some mid ∧
      db.hasMessage uid mid = false ∧ (C = none ∨ C = m.Creation) ∧
      (D = none ∨ D = m.Dismissal) ∧
      (consumeStateUpdateMessage stw env db m).1.messages = db.messages ++
        [⟨uid, mid, msgCTime env.now m.Metadata, m.Metadata.DeviceID, InBandMsgTypeUpdate⟩] ∧
      (consumeStateUpdateMessage stw env db m).1.items =
        (db.items ++ creationRows stw env.now uid C).map
          (dismissRow stw env.now (consumeStateUpdateMessage stw env db m).1
            (msgCTime env.now m.Metadata) uid D) := by
  cases hout : consumeStateUpdateMessage stw env db m with
  | mk db' r =>
    cases r with
    | ok x =>
      cases x
      obtain ⟨_, _, hb⟩ := consumeStateUpdateMessage_ok hout
      obtain ⟨uid, mid, h1, h2, h3, h4, h5, _⟩ := consumeStateUpdateBody_ok hl hb
      exact Or.inr ⟨uid, mid, m.Creation, m.Dismissal, h1, h2, h3, Or.inr rfl, Or.inr rfl,
        h4, h5⟩
    | err e =>
      left
      unfold consumeStateUpdateMessage at hout
      cases hb : env.beginErr with
      | some e' =>
        simp only [hb, Prod.mk.injEq] at hout
        exact hout.1.symm
      | none =>
        simp only [hb] at hout
        unfold consumeStateUpdateDeferred at hout
        cases hr : (consumeStateUpdateBody stw env.now db m).2 with
        | err e' =>
          simp only [hr, Prod.mk.injEq] at hout
          exact hout.1.symm
        | panic =>
          simp only [hr] at hout
          cases hc : env.commitErr <;> simp [hc] at hout
        | ok x =>
          simp only [hr] at hout
          cases hc : env.commitErr with
          | some e' =>
            simp only [hc, Prod.mk.injEq] at hout
            exact hout.1.symm
          | none => simp [hc] at hout
    | panic =>
      unfold consumeStateUpdateMessage at hout
      cases hb : env.beginErr with
      | some e' => simp [hb] at hout
      | none =>
        simp only [hb] at hout
        unfold consumeStateUpdateDeferred at hout
        cases hr : (consumeStateUpdateBody stw env.now db m).2 with
        | err e' => simp [hr] at hout
        | ok x =>
          simp only [hr] at hout
          cases hc : env.commitErr <;> simp [hc] at hout
        | panic =>
          simp only [hr] at hout
          cases hc : env.commitErr with
          | some e' =>
            simp only [hc, Prod.mk.injEq, and_true] at hout
            exact Or.inl hout.symm
          | none =>
            simp only [hc, Prod.mk.injEq, and_true] at hout
            right
            have hbody : consumeStateUpdateBody stw env.now db m = (db', .panic) := by
              rw [← hout, ← hr]
            obtain ⟨uid, mid, h1, h2, h3, h4, h5⟩ := consumeStateUpdateBody_panic hl hbody
            refine ⟨uid, mid, none, none, h1, h2, h3, Or.inl rfl, Or.inl rfl, h4, ?_⟩
            have hid : dismissRow stw env.now db' (msgCTime env.now m.Metadata) uid none = id := by
              funext i
              rfl
            rw [h5, hid, List.map_id]
            simp [creationRows]

theorem consumeInBandMessageMetadata_ids {stw : sqlTimeWriter} {now : Time}
    {tx tx1 : Store} {md md1 : Metadata} {t : InBandMsgType}
    (h : consumeInBandMessageMetadata stw now tx md t = .ok (tx1, md1)) :
    ∃ uid mid, md1.UID = some uid ∧ md1.MsgID = some mid := by
  unfold consumeInBandMessageMetadata checkMetadataForInsert at h
  cases hm : md.MsgID with
  | none => simp [hm] at h
  | some mid =>
    cases hu : md.UID with
    | none => simp [hm, hu] at h
    | some uid =>
      simp only [hm, hu] at h
      split at h
      · cases h
      · split at h
        · cases h
        · split at h
          · cases h
          · split at h
            · simp only [Except.ok.injEq, Prod.mk.injEq] at h
              exact ⟨uid, mid, by rw [← h.2]; exact hu, by rw [← h.2]; exact hm⟩
            · split at h
              · cases h
              · simp only [Except.ok.injEq, Prod.mk.injEq] at h
                refine ⟨uid, mid, ?_, ?_⟩
                · rw [← h.2]
                  exact hu
                · rw [← h.2]
                  exact hm

/-- The body panics only in `consumeCreation`, on a creation without MsgID. -/
theorem consumeStateUpdateBody_panic_creation {stw : sqlTimeWriter} {now : Time}
    {db tx : Store} {m : StateUpdateMessage}
    (h : consumeStateUpdateBody stw now db m = (tx, .panic)) :
    ∃ c, m.Creation = some c ∧ c.Metadata.MsgID = none := by
  unfold consumeStateUpdateBody at h
  cases hmd : consumeInBandMessageMetadata stw now db m.Metadata InBandMsgTypeUpdate with
  | error e => simp [hmd] at h
  | ok p =>
    obtain ⟨tx1, md⟩ := p
    obtain ⟨uid, mid, hmu, hmm⟩ := consumeInBandMessageMetadata_ids hmd
    simp only [hmd, hmu, hmm] at h
    have key : ∀ tx2, (match m.Dismissal with
          | none => (tx2, Result.ok ())
          | some d =>
            match consumeMsgIDsToDismiss stw tx2 (some uid) (some mid) d.MsgIDsToDismiss
                md.CTime with
            | .err e => (tx2, .err e)
            | .panic => (tx2, .panic)
            | .ok tx3 =>
              match consumeRangesToDismiss stw now tx3 (some uid) (some mid)
                  d.RangesToDismiss md.CTime with
              | .err e => (tx3, .err e)
              | .panic => (tx3, .panic)
              | .ok tx4 => (tx4, .ok ())) ≠ (tx, Result.panic) := by
      intro tx2 hd
      cases hdis : m.Dismissal with
      | none => simp [hdis] at hd
      | some d =>
        simp only [hdis] at hd
        cases h3 : consumeMsgIDsToDismiss stw tx2 (some uid) (some mid) d.MsgIDsToDismiss
            md.CTime with
        | err e => simp [h3] at hd
        | panic => exact consumeMsgIDsToDismiss_ne_panic _ _ _ _ _ _ h3
        | ok tx3 =>
          simp only [h3] at hd
          cases h4 : consumeRangesToDismiss stw now tx3 (some uid) (some mid)
              d.RangesToDismiss md.CTime with
          | err e => simp [h4] at hd
          | panic => exact consumeRangesToDismiss_ne_panic _ _ _ _ _ _ _ h4
          | ok tx4 => simp [h4] at hd
    cases hcr : m.Creation with
    | none =>
      simp only [hcr] at h
      exact absurd h (key tx1)
    | some c =>
      simp only [hcr] at h
      cases hc : consumeCreation stw now tx1 (some uid) c with
      | err e => simp [hc] at h
      | ok tx2 =>
        simp only [hc] at h
        exact absurd h (key tx2)
      | panic =>
        refine ⟨c, rfl, ?_⟩
        unfold consumeCreation at hc
        cases hcm : c.Metadata.MsgID with
        | none => rfl
        | some cmid =>
          simp only [hcm] at hc
          split at hc
          · cases hc
          · split at hc <;> cases hc

theorem consumeStateUpdateMessage_panic_creation {stw : sqlTimeWriter} {env : Env}
    {db : Store} {m : StateUpdateMessage}
    (h : (consumeStateUpdateMessage stw env db m).2 = .panic) :
    ∃ c, m.Creation = some c ∧ c.Metadata.MsgID = none := by
  unfold consumeStateUpdateMessage at h
  cases hb : env.beginErr with
  | some e => simp [hb] at h
  | none =>
    simp only [hb] at h
    unfold consumeStateUpdateDeferred at h
    cases hr : (consumeStateUpdateBody stw env.now db m).2 with
    | err e => simp [hr] at h
    | ok x =>
      simp only [hr] at h
      cases hc : env.commitErr <;> simp [hc] at h
    | panic =>
      exact consumeStateUpdateBody_panic_creation
        (show consumeStateUpdateBody stw env.now db m =
          ((consumeStateUpdateBody stw env.now db m).1, .panic) by rw [← hr])

/-! ## The claims on the engine -/

/-- C1, counterexample.  With user `[1]` and `t0 = 2`, three later calls of ConsumeMessage
that return nil change `State([1], nil, 2)`: a dismissal consumed at instant 3 changes the
DTime of the item of the snapshot from 1000 to 3; a creation consumed at instant 3 with the
supplied ctime 1 adds a second item to the snapshot; a dismissal consumed at instant 5 of
an item whose dtime 2 had kept it out of the snapshot brings it in, with dtime 5; and a
creation consumed at instant 3 whose Metadata carries the MsgID of the older message `[7]`
adds an item to the snapshot. -/
theorem C1_counterexample :
    -- the dtime of a snapshot item changes
    ((ConsumeMessage specTimeWriter ⟨3, none, none⟩ (exStore 1000)
        (updateMessage (exDismissal [8] 0 [[7]]))).2 = .ok () ∧
      (SQLEngine.State specTimeWriter 2 (exStore 1000) [1] none (some ⟨some 2, none⟩)).Items
        = [MakeItem [1] [7] none 1 "foos" (some 1000) [102]] ∧
      (SQLEngine.State specTimeWriter 4
        (ConsumeMessage specTimeWriter ⟨3, none, none⟩ (exStore 1000)
          (updateMessage (exDismissal [8] 0 [[7]]))).1 [1] none (some ⟨some 2, none⟩)).Items
        = [MakeItem [1] [7] none 1 "foos" (some 3) [102]]) ∧
    -- a creation with a supplied ctime before t0 enters the snapshot
    ((ConsumeMessage specTimeWriter ⟨3, none, none⟩ (exStore 1000)
        (updateMessage (exCreation [8] 1 "foos" 1000))).2 = .ok () ∧
      (SQLEngine.State specTimeWriter 2 (exStore 1000) [1] none
        (some ⟨some 2, none⟩)).Items.length = 1 ∧
      (SQLEngine.State specTimeWriter 4
        (ConsumeMessage specTimeWriter ⟨3, none, none⟩ (exStore 1000)
          (updateMessage (exCreation [8] 1 "foos" 1000))).1 [1] none
          (some ⟨some 2, none⟩)).Items.length = 2) ∧
    -- an item that had expired at t0 comes back when it is dismissed later
    ((ConsumeMessage specTimeWriter ⟨5, none, none⟩ (exStore 2)
        (updateMessage (exDismissal [8] 0 [[7]]))).2 = .ok () ∧
      (SQLEngine.State specTimeWriter 2 (exStore 2) [1] none (some ⟨some 2, none⟩)).Items = [] ∧
      (SQLEngine.State specTimeWriter 6
        (ConsumeMessage specTimeWriter ⟨5, none, none⟩ (exStore 2)
          (updateMessage (exDismissal [8] 0 [[7]]))).1 [1] none (some ⟨some 2, none⟩)).Items
        = [MakeItem [1] [7] none 1 "foos" (some 5) [102]]) ∧
    -- a creation that carries the MsgID of an older message enters the snapshot
    ((ConsumeMessage specTimeWriter ⟨3, none, none⟩ exStoreNoItem
        (updateMessage exForeignCreation)).2 = .ok () ∧
      (SQLEngine.State specTimeWriter 2 exStoreNoItem [1] none (some ⟨some 2, none⟩)).Items
        = [] ∧
      (SQLEngine.State specTimeWriter 4
        (ConsumeMessage specTimeWriter ⟨3, none, none⟩ exStoreNoItem
          (updateMessage exForeignCreation)).1 [1] none (some ⟨some 2, none⟩)).Items
        = [MakeItem [1] [7] none 1 "foos" (some 1000) [105]]) := by
  decide

/-- C1 (amended; P4, historical snapshot replay).  For every user `u` and instant `t0`, a
call of ConsumeMessage, whatever its outcome, leaves `State(u, nil, t0)` with the same
items in the same order up to their DTime field, provided that, when the message is a
StateUpdate of `u`: its ctime (the supplied one, or the clock's when that is zero) is later
than `t0`; its creation, if any, carries the message's own MsgID; and no item of `u` that it
dismisses, by id or by a range that reaches the ctime of the item's message, had a dtime at
or before `t0`. -/
theorem C1_replay_up_to_dtime (stw : sqlTimeWriter) (hl : stw.Lawful) (env : Env) (db : Store)
    (m : Message) (u : UID) (t0 now0 now1 : Time)
    (hsafe : ∀ ibm su, m.ToInBandMessage = some ibm → ibm.ToStateUpdateMessage = some su →
      su.Metadata.UID = some u →
        t0 < msgCTime env.now su.Metadata ∧
        (∀ c, su.Creation = some c → c.Metadata.MsgID = su.Metadata.MsgID) ∧
        (∀ d, su.Dismissal = some d → ∀ i ∈ db.items, i.uid = u →
          (i.msgid ∈ d.MsgIDsToDismiss ∨
            ∃ mr ∈ d.RangesToDismiss, i.category = mr.Category ∧
              ∃ r ∈ db.messages, r.uid = u ∧ r.msgid = i.msgid ∧
                sqlLe r.ctime (stw.TimeOrOffset env.now mr.EndTime) = true) →
          ∀ dt, i.dtime = some dt → t0 < dt)) :
    (SQLEngine.State stw now1 (ConsumeMessage stw env db m).1 u none
        (some ⟨some t0, none⟩)).Items.map Item.withoutDTime =
      (SQLEngine.State stw now0 db u none (some ⟨some t0, none⟩)).Items.map
        Item.withoutDTime := by
  rw [State_withoutDTime hl, State_withoutDTime hl]
  unfold ConsumeMessage
  cases hibm : m.ToInBandMessage with
  | none => rfl
  | some ibm =>
    simp only
    unfold consumeInBandMessage
    cases hsu : ibm.ToStateUpdateMessage with
    | none => rfl
    | some su =>
      simp only
      rcases consumeStateUpdateMessage_shape hl env db su with hsame | hshape
      · rw [hsame]
      · obtain ⟨uid, mid, C, D, h1, h2, h3, hC, hD, hmsgs, hitems⟩ := hshape
        congr 2
        apply view_preserved u t0 db _ _ _ _ hmsgs hitems
        · intro i
          exact dismissRow_key _ _ _ _ _ _ i
        · intro hu
          simp only at hu
          subst hu
          exact (hsafe ibm su hibm hsu h1).1
        · intro e he heu r hr hk
          cases C with
          | none => simp [creationRows] at he
          | some c =>
            rcases hC with hC | hC
            · cases hC
            · cases hcm : c.Metadata.MsgID with
              | none => simp [creationRows, hcm] at he
              | some cmid =>
                simp only [creationRows, hcm, List.mem_singleton] at he
                subst he
                simp only at heu hk
                subst heu
                have hb := (hsafe ibm su hibm hsu h1).2.1 c hC.symm
                rw [hcm, h2] at hb
                cases hb
                exact (hasMessage_eq_false_iff db _ _).1 h3 r hr ⟨hk.1.symm, hk.2.symm⟩
        · intro i hi hiu hpar r
          cases D with
          | none => rfl
          | some d =>
            rcases hD with hD | hD
            · cases hD
            · by_cases hne : dismissRow stw env.now (consumeStateUpdateMessage stw env db su).1
                  (msgCTime env.now su.Metadata) uid (some d) i = i
              · rw [hne]
              · obtain ⟨t1, t2⟩ := dismissRow_ne _ _ _ _ _ _ _ hne
                rw [hiu] at t1
                subst t1
                obtain ⟨ha, _, hc⟩ := hsafe ibm su hibm hsu h1
                have hvis : ∀ dt, i.dtime = some dt → t0 < dt := by
                  apply hc d hD.symm i hi hiu
                  rcases t2 with t2 | t2
                  · exact Or.inl t2
                  · right
                    unfold inRanges at t2
                    rw [List.any_eq_true] at t2
                    obtain ⟨mr, hmr, hcond⟩ := t2
                    simp only [decide_eq_true_eq] at hcond
                    refine ⟨mr, hmr, hcond.2.1, ?_⟩
                    obtain ⟨r', hr', g1, g2, g3⟩ := (mem_msgidsUpTo_opt _ _ _ _).1 hcond.2.2
                    rw [hmsgs, List.mem_append, List.mem_singleton] at hr'
                    rcases hr' with hr' | hr'
                    · exact ⟨r', hr', g1, g2, g3⟩
                    · exfalso
                      obtain ⟨p, hp, hpk, _⟩ := hpar
                      subst hr'
                      simp only at g2
                      exact (hasMessage_eq_false_iff db u mid).1 h3 p hp
                        ⟨hpk.1.symm.trans hiu, hpk.2.symm.trans g2.symm⟩
                rcases dismissRow_dtime stw env.now (consumeStateUpdateMessage stw env db su).1
                    (msgCTime env.now su.Metadata) u (some d) i with hd1 | hd1
                · exact absurd hd1 hne
                · rw [hd1]
                  unfold whereDTime sqlGt
                  simp only [gt_iff_lt, ha, decide_True]
                  cases hdt : i.dtime with
                  | none => rfl
                  | some dt => simp [hvis dt hdt]

/-- C1, witness: a dismissal by id consumed at instant 3 and the snapshot of instant 2. -/
theorem C1_replay_up_to_dtime_witness :
    (SQLEngine.State specTimeWriter 4
        (ConsumeMessage specTimeWriter ⟨3, none, none⟩ (exStore 1000)
          (updateMessage (exDismissal [8] 0 [[7]]))).1 [1] none
        (some ⟨some 2, none⟩)).Items.map Item.withoutDTime =
      (SQLEngine.State specTimeWriter 2 (exStore 1000) [1] none
        (some ⟨some 2, none⟩)).Items.map Item.withoutDTime :=
  C1_replay_up_to_dtime specTimeWriter specTimeWriter_lawful ⟨3, none, none⟩ (exStore 1000)
    (updateMessage (exDismissal [8] 0 [[7]])) [1] 2 2 4
    (by
      intro ibm su h1 h2 _
      simp only [updateMessage, Option.some.injEq] at h1
      subst h1
      simp only [Option.some.injEq] at h2
      subst h2
      refine ⟨by decide, (fun c hc => by cases hc), ?_⟩
      intro d _ i hi _ _ dt hdt
      simp only [exStore, List.mem_singleton] at hi
      subst hi
      simp only [Option.some.injEq] at hdt
      subst hdt
      decide)

theorem whereDevice_iff (d : Option DeviceID) (r : ItemRow × MessageRow) :
    whereDevice d r = true ↔ d = none ∨ r.2.devid = none ∨ r.2.devid = d := by
  unfold whereDevice
  cases d <;> cases hv : r.2.devid <;> simp

theorem whereDTime_absolute_iff (t : Time) (r : ItemRow × MessageRow) :
    whereDTime (some t) r = true ↔ ¬ ∃ dt, r.1.dtime = some dt ∧ dt ≤ t := by
  unfold whereDTime sqlGt
  cases hd : r.1.dtime <;> simp

/-- C2 (I7).  For every store, user `u`, device argument `d` and absolute query time `t`:
an item of `u` whose message has ctime at most `t` and which passes the device filter is
missing from `State(u, d, t)` if and only if its dtime is set and `t` is at or after it; an
item with no dtime is present. -/
theorem C2_dtime_exclusion (stw : sqlTimeWriter) (hl : stw.Lawful) (now : Time) (s : Store)
    (u : UID) (d : Option DeviceID) (t : Time) (i : ItemRow) (m : MessageRow)
    (hi : i ∈ s.items) (hm : m ∈ s.messages) (hj : i.uid = m.uid ∧ i.msgid = m.msgid)
    (hu : i.uid = u) (hc : m.ctime ≤ t) (hd : d = none ∨ m.devid = none ∨ m.devid = d) :
    (rowToItem u (i, m) ∉ (SQLEngine.State stw now s u d (some ⟨some t, none⟩)).Items ↔
      ∃ dt, i.dtime = some dt ∧ dt ≤ t) ∧
    (i.dtime = none →
      rowToItem u (i, m) ∈ (SQLEngine.State stw now s u d (some ⟨some t, none⟩)).Items) := by
  have key : rowToItem u (i, m) ∈ (SQLEngine.State stw now s u d (some ⟨some t, none⟩)).Items ↔
      ¬ ∃ dt, i.dtime = some dt ∧ dt ≤ t := by
    rw [rowToItem_mem_State stw now s u d _ i m hi hm hj hu]
    unfold itemsWhere queryTime whereCTime whereMsgID sqlLe
    simp only [hl.absolute, Bool.and_eq_true, decide_eq_true_eq, and_true]
    rw [whereDevice_iff, whereDTime_absolute_iff]
    simp only [hu, hc, true_and, and_true]
    exact ⟨fun h => h.1, fun h => ⟨h, hd⟩⟩
  refine ⟨?_, fun hn => key.2 (by simp [hn])⟩
  rw [key, not_not]

/-- C2, witness: an item with dtime 6 asked for at instant 9 by device `[5]`. -/
theorem C2_dtime_exclusion_witness :
    (rowToItem [1] (⟨[1], [7], "foos", some 6, [102]⟩, ⟨[1], [7], 3, none, 1⟩) ∉
        (SQLEngine.State specTimeWriter 0 exStoreDevices [1] (some [5])
          (some ⟨some 9, none⟩)).Items ↔
      ∃ dt, (some 6 : Option Time) = some dt ∧ dt ≤ 9) ∧
    ((some 6 : Option Time) = none →
      rowToItem [1] (⟨[1], [7], "foos", some 6, [102]⟩, ⟨[1], [7], 3, none, 1⟩) ∈
        (SQLEngine.State specTimeWriter 0 exStoreDevices [1] (some [5])
          (some ⟨some 9, none⟩)).Items) :=
  C2_dtime_exclusion specTimeWriter specTimeWriter_lawful 0 exStoreDevices [1] (some [5]) 9
    ⟨[1], [7], "foos", some 6, [102]⟩ ⟨[1], [7], 3, none, 1⟩
    (by decide) (by decide) ⟨rfl, rfl⟩ rfl (by decide) (Or.inr (Or.inl rfl))

/-- C3 (device-scoped visibility, I8 and P5).  For every store, user `u` and query time,
and every item of `u` that satisfies the other filters of the query: if the devid of its
message is NULL, it is in `State(u, d, t)` for every device argument `d`, nil included; if
the devid is `D`, it is in `State(u, d, t)` exactly when `d` is `D` or nil, and it is absent
for every other device `D2`. -/
theorem C3_device_visibility (stw : sqlTimeWriter) (now : Time) (s : Store)
    (u : UID) (t : Option TimeOrOffset) (i : ItemRow) (m : MessageRow)
    (hi : i ∈ s.items) (hm : m ∈ s.messages) (hj : i.uid = m.uid ∧ i.msgid = m.msgid)
    (hu : i.uid = u) (hdt : whereDTime (queryTime stw now t) (i, m) = true)
    (hct : whereCTime stw now t (i, m) = true) :
    (m.devid = none →
      ∀ d, rowToItem u (i, m) ∈ (SQLEngine.State stw now s u d t).Items) ∧
    (∀ D, m.devid = some D →
      (∀ d, rowToItem u (i, m) ∈ (SQLEngine.State stw now s u d t).Items ↔
        d = some D ∨ d = none) ∧
      (∀ D2, D2 ≠ D →
        rowToItem u (i, m) ∉ (SQLEngine.State stw now s u (some D2) t).Items)) := by
  have key : ∀ d, rowToItem u (i, m) ∈ (SQLEngine.State stw now s u d t).Items ↔
      d = none ∨ m.devid = none ∨ m.devid = d := by
    intro d
    rw [rowToItem_mem_State stw now s u d _ i m hi hm hj hu]
    unfold itemsWhere whereMsgID
    simp only [hu, hdt, hct, decide_True, Bool.and_true, Bool.true_and]
    exact whereDevice_iff d (i, m)
  refine ⟨fun hn d => (key d).2 (Or.inr (Or.inl hn)), fun D hD => ⟨fun d => ?_, fun D2 hne => ?_⟩⟩
  · rw [key, hD]
    constructor
    · rintro (h | h | h)
      · exact Or.inr h
      · cases h
      · exact Or.inl h.symm
    · rintro (h | h)
      · exact Or.inr (Or.inr h.symm)
      · exact Or.inl h
  · rw [key, hD]
    rintro (h | h | h)
    · cases h
    · cases h
    · exact hne (Option.some.inj h).symm

/-- C3, witness: an item whose message has devid `[5]`, asked for the current instant. -/
theorem C3_device_visibility_witness :
    ((some [5] : Option DeviceID) = none →
      ∀ d, rowToItem [1] (⟨[1], [8], "foos", none, [103]⟩, ⟨[1], [8], 4, some [5], 1⟩) ∈
        (SQLEngine.State specTimeWriter 9 exStoreDevices [1] d none).Items) ∧
    (∀ D, (some [5] : Option DeviceID) = some D →
      (∀ d, rowToItem [1] (⟨[1], [8], "foos", none, [103]⟩, ⟨[1], [8], 4, some [5], 1⟩) ∈
          (SQLEngine.State specTimeWriter 9 exStoreDevices [1] d none).Items ↔
        d = some D ∨ d = none) ∧
      (∀ D2, D2 ≠ D →
        rowToItem [1] (⟨[1], [8], "foos", none, [103]⟩, ⟨[1], [8], 4, some [5], 1⟩) ∉
          (SQLEngine.State specTimeWriter 9 exStoreDevices [1] (some D2) none).Items)) :=
  C3_device_visibility specTimeWriter 9 exStoreDevices [1] none
    ⟨[1], [8], "foos", none, [103]⟩ ⟨[1], [8], 4, some [5], 1⟩
    (by decide) (by decide) ⟨rfl, rfl⟩ rfl rfl rfl

/-- C4, counterexample.  The creation `[7]` of user `[1]` is consumed at instant 1, then a
StateUpdate of the same user that dismisses `[7]` by id and supplies the ctime 100 is
consumed at instant 2; both calls return nil, and `State([1], nil, now)` at instant 3 still
holds the item `[7]`, with dtime 100. -/
theorem C4_counterexample :
    consumeStateUpdateMessage specTimeWriter ⟨1, none, none⟩ Store.empty
        (exCreation [7] 0 "foos" 1000) = (exStore 1000, .ok ()) ∧
      consumeStateUpdateMessage specTimeWriter ⟨2, none, none⟩ (exStore 1000)
        (exDismissal [8] 100 [[7]]) = (exStoreDismissed 100, .ok ()) ∧
      (SQLEngine.State specTimeWriter 3 (exStoreDismissed 100) [1] none none).Items
        = [MakeItem [1] [7] none 1 "foos" (some 100) [102]] := by
  decide

/-- C4 (amended; P2).  After a StateUpdate of user `u` whose MsgIDsToDismiss contains `cid`
has been consumed, whatever was consumed before it (in particular the creation with that
MsgID), no item of `State(u, nil, now)` has the MsgID `cid`, provided the ctime of the
dismissing message (the supplied one, or the clock's when that is zero) is not later than
the instant `now` of the query. -/
theorem C4_dismissed_by_id_absent (stw : sqlTimeWriter) (hl : stw.Lawful) (env : Env)
    (db db' : Store) (m : StateUpdateMessage) (dis : Dismissal) (u : UID) (cid : MsgID)
    (now : Time)
    (h : consumeStateUpdateMessage stw env db m = (db', .ok ()))
    (hu : m.Metadata.UID = some u) (hd : m.Dismissal = some dis)
    (hmem : cid ∈ dis.MsgIDsToDismiss)
    (hnow : msgCTime env.now m.Metadata ≤ now) :
    ∀ it ∈ (SQLEngine.State stw now db' u none none).Items, it.Metadata.MsgID ≠ some cid := by
  intro it hit hid
  obtain ⟨_, _, hb⟩ := consumeStateUpdateMessage_ok h
  obtain ⟨uid, mid, hu', _, _, _, hitems, _⟩ := consumeStateUpdateBody_ok hl hb
  rw [hu] at hu'
  cases hu'
  obtain ⟨i, r, hi, _, _, _, hw, he⟩ := mem_State_rows stw now db' u none none it hit
  rw [← he] at hid
  have hic : i.msgid = cid := by
    simpa [rowToItem, MakeItem] using hid
  have hiu : i.uid = u := by
    unfold itemsWhere at hw
    simp only [Bool.and_eq_true, decide_eq_true_eq] at hw
    exact hw.1.1.1.1
  rw [hitems, List.mem_map] at hi
  obtain ⟨j, _, hj⟩ := hi
  obtain ⟨k1, k2, _, _⟩ := dismissRow_key stw env.now db' (msgCTime env.now m.Metadata) u
    m.Dismissal j
  rw [hj] at k1 k2
  have hdt : i.dtime = some (msgCTime env.now m.Metadata) := by
    rw [← hj, hd]
    apply dismissRow_byID
    · rw [← k1, hiu]
    · rw [← k2, hic]
      exact hmem
  unfold itemsWhere whereDTime queryTime sqlGt at hw
  simp only [hdt, hl.now_eq, Bool.and_eq_true, decide_eq_true_eq] at hw
  exact absurd hw.1.1.1.2 (not_lt.2 hnow)

/-- C4, witness: the item `[7]` is in the state at instant 1, is dismissed by id at instant
2, and is absent at instant 3. -/
theorem C4_dismissed_by_id_absent_witness :
    consumeStateUpdateMessage specTimeWriter ⟨2, none, none⟩ (exStore 1000)
        (exDismissal [8] 0 [[7]]) = (exStoreDismissed 2, .ok ()) ∧
      (SQLEngine.State specTimeWriter 1 (exStore 1000) [1] none none).Items
        = [MakeItem [1] [7] none 1 "foos" (some 1000) [102]] ∧
      ∀ it ∈ (SQLEngine.State specTimeWriter 3 (exStoreDismissed 2) [1] none none).Items,
        it.Metadata.MsgID ≠ some [7] :=
  ⟨by decide, by decide,
    C4_dismissed_by_id_absent specTimeWriter specTimeWriter_lawful ⟨2, none, none⟩
      (exStore 1000) (exStoreDismissed 2) (exDismissal [8] 0 [[7]]) ⟨[[7]], []⟩ [1] [7] 3
      (by decide) rfl rfl (by decide) (by decide)⟩

/-- C7, the code at the failing input.  ConsumeMessage on a message whose in-band payload
is a StateSync with UID `[1]` and MsgID `[9]` returns nil and leaves the empty store empty:
`messages` gets no row for (`[1]`, `[9]`) with mtype 2. -/
theorem C7_sync_not_persisted :
    ConsumeMessage specTimeWriter ⟨6, none, none⟩ Store.empty exSyncMessage
        = (Store.empty, .ok ()) ∧
      ¬ ∃ r ∈ (ConsumeMessage specTimeWriter ⟨6, none, none⟩ Store.empty
          exSyncMessage).1.messages, r.uid = [1] ∧ r.msgid = [9] ∧ r.mtype = 2 := by
  decide

end Gregor

/-! ## The claims on Merge -/

namespace Gregor1

theorem mergeDismissals_updates (h : Heap) (s : StateUpdateMessage) (p2 : Nat) :
    (mergeDismissals h s p2).1.updates = h.updates ∧
      (mergeDismissals h s p2).1.items = h.items := by
  unfold mergeDismissals
  cases s.Dismissal_ with
  | none => exact ⟨rfl, rfl⟩
  | some d =>
    cases (h.updates p2).Dismissal_ with
    | none => exact ⟨rfl, rfl⟩
    | some d2 => exact ⟨rfl, rfl⟩

theorem mergeDismissals_both (h : Heap) (s : StateUpdateMessage) (p2 d d2 : Nat)
    (hd : s.Dismissal_ = some d) (hd2 : (h.updates p2).Dismissal_ = some d2) :
    mergeDismissals h s p2 =
      ((h.setMsgIDs d ((h.dismissals d).MsgIDs_ ++ (h.dismissals d2).MsgIDs_)).setRanges d
        (((h.setMsgIDs d ((h.dismissals d).MsgIDs_ ++ (h.dismissals d2).MsgIDs_)).dismissals
            d).Ranges_ ++
          ((h.setMsgIDs d ((h.dismissals d).MsgIDs_ ++ (h.dismissals d2).MsgIDs_)).dismissals
            d2).Ranges_), s, .returned none) := by
  unfold mergeDismissals
  simp only [hd, hd2]

/-- C8 (Merge fails on conflicts).  For every heap and every pair of InBandMessages `a`
and `b`: if `a` or `b` is a StateSync, `a.Merge(b)` returns the error "Cannot merge sync
messages"; if both are StateUpdates (no StateSync) that each carry a creation, it returns
the error "clash of creations"; in both cases the heap, hence everything `a` and `b` point
to, is as before. -/
theorem C8_merge_conflicts (h : Heap) (a b : InBandMessage) :
    ((a.StateSync_ ≠ none ∨ b.StateSync_ ≠ none) →
      InBandMessage.Merge h a (.gregor1 b) =
        (h, .returned (some "Cannot merge sync messages"))) ∧
    (∀ pa pb, a.StateSync_ = none → b.StateSync_ = none →
      a.StateUpdate_ = some pa → b.StateUpdate_ = some pb →
      (h.updates pa).Creation_ ≠ none → (h.updates pb).Creation_ ≠ none →
      InBandMessage.Merge h a (.gregor1 b) = (h, .returned (some "clash of creations"))) := by
  constructor
  · intro hs
    unfold InBandMessage.Merge
    simp only [if_pos hs]
  · intro pa pb ha hb hpa hpb hca hcb
    unfold InBandMessage.Merge
    have hn : ¬ (a.StateSync_ ≠ none ∨ b.StateSync_ ≠ none) := by
      rw [ha, hb]
      simp
    simp only [if_neg hn, hpa, hpb]
    unfold StateUpdateMessage.Merge
    simp only [if_pos (And.intro hca hcb)]

/-- C8, witness: a StateSync merged with an update, and two updates with a creation. -/
theorem C8_merge_conflicts_witness :
    InBandMessage.Merge exHeap ⟨none, some 0⟩ (.gregor1 ⟨some 1, none⟩) =
        (exHeap, .returned (some "Cannot merge sync messages")) ∧
      InBandMessage.Merge exHeap ⟨some 1, none⟩ (.gregor1 ⟨some 3, none⟩) =
        (exHeap, .returned (some "clash of creations")) :=
  ⟨(C8_merge_conflicts exHeap ⟨none, some 0⟩ ⟨some 1, none⟩).1 (Or.inl (by decide)),
    (C8_merge_conflicts exHeap ⟨some 1, none⟩ ⟨some 3, none⟩).2 1 3 rfl rfl rfl rfl
      (by decide) (by decide)⟩

/-- C9, the code at the failing input.  `Merge` changes no StateUpdateMessage, whatever its
arguments, because its receiver is a copy.  With `a` the update 0 of `exHeap`, which
carries no creation, and `b` the update 1, which carries the creation 0: `a.Merge(b)`
returns nil, the copy of `a` inside `Merge` gets the creation of `b`, and the creation of
`a` is still nil afterwards. -/
theorem C9_creation_not_taken :
    (∀ h a b, (InBandMessage.Merge h a b).1.updates = h.updates) ∧
    (InBandMessage.Merge exHeap ⟨some 0, none⟩ (.gregor1 ⟨some 1, none⟩)).2 = .returned none ∧
    (exHeap.updates 0).Creation_ = none ∧
    (exHeap.updates 1).Creation_ = some 0 ∧
    (StateUpdateMessage.Merge exHeap (exHeap.updates 0) (some 1)).2.1.Creation_ = some 0 ∧
    ((InBandMessage.Merge exHeap ⟨some 0, none⟩ (.gregor1 ⟨some 1, none⟩)).1.updates
      0).Creation_ = none := by
  refine ⟨?_, by decide, by decide, by decide, by decide, by decide⟩
  intro h a b
  unfold InBandMessage.Merge
  cases b with
  | other n => rfl
  | gregor1 t2 =>
    simp only
    split
    · rfl
    · cases a.StateUpdate_ with
      | none => rfl
      | some p =>
        simp only
        unfold StateUpdateMessage.Merge
        cases t2.StateUpdate_ with
        | none => rfl
        | some p2 =>
          simp only
          split
          · rfl
          · exact (mergeDismissals_updates h _ p2).1

/-- C10 (I6, dismissals are concatenated).  For every heap and every pair of StateUpdate
InBandMessages `a` and `b` that both carry a dismissal and do not both carry a creation,
`a.Merge(b)` returns nil and afterwards `a` still points to its dismissal, whose MsgIDs
list is `a`'s old list followed by `b`'s list and whose Ranges list is `a`'s old list
followed by `b`'s list; nothing is dropped: the lengths add. -/
theorem C10_dismissals_concatenated (h : Heap) (a b : InBandMessage) (pa pb da db : Nat)
    (ha : a.StateSync_ = none) (hb : b.StateSync_ = none)
    (hpa : a.StateUpdate_ = some pa) (hpb : b.StateUpdate_ = some pb)
    (hda : (h.updates pa).Dismissal_ = some da) (hdb : (h.updates pb).Dismissal_ = some db)
    (hcr : ¬ ((h.updates pa).Creation_ ≠ none ∧ (h.updates pb).Creation_ ≠ none)) :
    (InBandMessage.Merge h a (.gregor1 b)).2 = .returned none ∧
    ((InBandMessage.Merge h a (.gregor1 b)).1.updates pa).Dismissal_ = some da ∧
    ((InBandMessage.Merge h a (.gregor1 b)).1.dismissals da).MsgIDs_ =
      (h.dismissals da).MsgIDs_ ++ (h.dismissals db).MsgIDs_ ∧
    ((InBandMessage.Merge h a (.gregor1 b)).1.dismissals da).Ranges_ =
      (h.dismissals da).Ranges_ ++ (h.dismissals db).Ranges_ ∧
    ((InBandMessage.Merge h a (.gregor1 b)).1.dismissals da).MsgIDs_.length =
      (h.dismissals da).MsgIDs_.length + (h.dismissals db).MsgIDs_.length ∧
    ((InBandMessage.Merge h a (.gregor1 b)).1.dismissals da).Ranges_.length =
      (h.dismissals da).Ranges_.length + (h.dismissals db).Ranges_.length := by
  have hn : ¬ (a.StateSync_ ≠ none ∨ b.StateSync_ ≠ none) := by
    rw [ha, hb]
    simp
  have hm : InBandMessage.Merge h a (.gregor1 b) =
      ((h.setMsgIDs da ((h.dismissals da).MsgIDs_ ++ (h.dismissals db).MsgIDs_)).setRanges da
        (((h.setMsgIDs da ((h.dismissals da).MsgIDs_ ++ (h.dismissals db).MsgIDs_)).dismissals
            da).Ranges_ ++
          ((h.setMsgIDs da ((h.dismissals da).MsgIDs_ ++ (h.dismissals db).MsgIDs_)).dismissals
            db).Ranges_), .returned none) := by
    unfold InBandMessage.Merge
    simp only [if_neg hn, hpa, hpb]
    unfold StateUpdateMessage.Merge
    simp only [if_neg hcr]
    rw [mergeDismissals_both h _ pb da db (by split <;> simp [hda]) hdb]
  have hr : ∀ x, ((h.setMsgIDs da ((h.dismissals da).MsgIDs_ ++
      (h.dismissals db).MsgIDs_)).dismissals x).Ranges_ = (h.dismissals x).Ranges_ := by
    intro x
    unfold Heap.setMsgIDs
    by_cases hx : x = da
    · subst hx
      simp
    · simp [Function.update_noteq hx]
  rw [hm]
  refine ⟨rfl, hda, ?_, ?_, ?_, ?_⟩
  · simp [Heap.setRanges, Heap.setMsgIDs]
  · simp only [Heap.setRanges, Function.update_same, hr]
  · simp [Heap.setRanges, Heap.setMsgIDs]
  · simp only [Heap.setRanges, Function.update_same, hr, List.length_append]

/-- C10, witness: the dismissal 0 with ids `[[7]]` merged with the dismissal 1 with ids
`[[7], [9]]` and one range. -/
theorem C10_dismissals_concatenated_witness :
    (InBandMessage.Merge exHeap ⟨some 2, none⟩ (.gregor1 ⟨some 3, none⟩)).2 = .returned none ∧
    ((InBandMessage.Merge exHeap ⟨some 2, none⟩ (.gregor1 ⟨some 3, none⟩)).1.updates
      2).Dismissal_ = some 0 ∧
    ((InBandMessage.Merge exHeap ⟨some 2, none⟩ (.gregor1 ⟨some 3, none⟩)).1.dismissals
      0).MsgIDs_ = (exHeap.dismissals 0).MsgIDs_ ++ (exHeap.dismissals 1).MsgIDs_ ∧
    ((InBandMessage.Merge exHeap ⟨some 2, none⟩ (.gregor1 ⟨some 3, none⟩)).1.dismissals
      0).Ranges_ = (exHeap.dismissals 0).Ranges_ ++ (exHeap.dismissals 1).Ranges_ ∧
    ((InBandMessage.Merge exHeap ⟨some 2, none⟩ (.gregor1 ⟨some 3, none⟩)).1.dismissals
      0).MsgIDs_.length =
        (exHeap.dismissals 0).MsgIDs_.length + (exHeap.dismissals 1).MsgIDs_.length ∧
    ((InBandMessage.Merge exHeap ⟨some 2, none⟩ (.gregor1 ⟨some 3, none⟩)).1.dismissals
      0).Ranges_.length =
        (exHeap.dismissals 0).Ranges_.length + (exHeap.dismissals 1).Ranges_.length :=
  C10_dismissals_concatenated exHeap ⟨some 2, none⟩ ⟨some 3, none⟩ 2 3 0 1 rfl rfl rfl rfl
    rfl rfl (by decide)

end Gregor1

/-! ## The log query: one message for each MsgID -/

namespace Gregor

theorem mem_firstOccurrences {α : Type} [DecidableEq α] (l : List α) (y : α) :
    y ∈ firstOccurrences l ↔ y ∈ l := by
  induction l with
  | nil => simp [firstOccurrences]
  | cons x l ih =>
    simp only [firstOccurrences, List.mem_cons, List.mem_filter, ih, decide_eq_true_eq]
    constructor
    · rintro (h | h)
      · exact Or.inl h
      · exact Or.inr h.1
    · rintro (h | h)
      · exact Or.inl h
      · by_cases hx : y = x
        · exact Or.inl hx
        · exact Or.inr ⟨h, hx⟩

theorem nodup_firstOccurrences {α : Type} [DecidableEq α] (l : List α) :
    (firstOccurrences l).Nodup := by
  induction l with
  | nil => simp [firstOccurrences]
  | cons x l ih =>
    simp only [firstOccurrences, List.nodup_cons, List.mem_filter, decide_eq_true_eq]
    exact ⟨fun h => h.2 rfl, ih.filter _⟩

theorem firstOccurrences_append_singleton {α : Type} [DecidableEq α] (l : List α) (x : α) :
    firstOccurrences (l ++ [x]) =
      if x ∈ l then firstOccurrences l else firstOccurrences l ++ [x] := by
  induction l with
  | nil => simp [firstOccurrences]
  | cons a l ih =>
    have e1 : firstOccurrences (a :: l ++ [x]) =
        a :: (firstOccurrences (l ++ [x])).filter (fun y => decide (y ≠ a)) := rfl
    have e2 : firstOccurrences (a :: l) =
        a :: (firstOccurrences l).filter (fun y => decide (y ≠ a)) := rfl
    rw [e1, e2, ih]
    by_cases hxl : x ∈ l
    · simp [hxl]
    · by_cases hxa : x = a
      · subst hxa
        simp [hxl, List.filter_append]
      · simp [hxl, hxa, List.filter_append]

theorem length_firstOccurrences {α : Type} [DecidableEq α] (l : List α) :
    (firstOccurrences l).length = l.toFinset.card := by
  rw [← List.toFinset_card_of_nodup (nodup_firstOccurrences l)]
  congr 1
  ext y
  simp [mem_firstOccurrences]

theorem pairwise_firstOccurrences {α : Type} [DecidableEq α] (l : List α) :
    (firstOccurrences l).Pairwise (fun x y => l.indexOf x < l.indexOf y) := by
  induction l with
  | nil => simp [firstOccurrences]
  | cons a l ih =>
    simp only [firstOccurrences, List.pairwise_cons, List.mem_filter, decide_eq_true_eq]
    constructor
    · intro y hy
      rw [List.indexOf_cons_self, List.indexOf_cons_ne _ (fun h => hy.2 h.symm)]
      exact Nat.succ_pos _
    · have h2 : ((firstOccurrences l).filter (fun y => decide (y ≠ a))).Pairwise
          (fun x y => l.indexOf x < l.indexOf y) := ih.filter _
      refine (List.Pairwise.and_mem.1 h2).imp ?_
      rintro x y ⟨hx, hy, hlt⟩
      simp only [List.mem_filter, decide_eq_true_eq] at hx hy
      rw [List.indexOf_cons_ne _ (fun h => hx.2 h.symm),
        List.indexOf_cons_ne _ (fun h => hy.2 h.symm)]
      exact Nat.succ_lt_succ hlt

theorem mergeDismissals_frame (h : Gregor1.Heap) (s : Gregor1.StateUpdateMessage) (p2 : Nat) :
    (Gregor1.mergeDismissals h s p2).1.updates = h.updates ∧
      (Gregor1.mergeDismissals h s p2).1.syncs = h.syncs := by
  unfold Gregor1.mergeDismissals
  cases s.Dismissal_ with
  | none => exact ⟨rfl, rfl⟩
  | some d =>
    cases (h.updates p2).Dismissal_ with
    | none => exact ⟨rfl, rfl⟩
    | some d2 => exact ⟨rfl, rfl⟩

/-- Merge writes to dismissals only. -/
theorem Merge_frame (h : Gregor1.Heap) (a : Gregor1.InBandMessage) (b : Gregor1.InBandMessageArg) :
    (a.Merge h b).1.updates = h.updates ∧ (a.Merge h b).1.syncs = h.syncs := by
  unfold Gregor1.InBandMessage.Merge
  cases b with
  | other n => exact ⟨rfl, rfl⟩
  | gregor1 t2 =>
    simp only
    split
    · exact ⟨rfl, rfl⟩
    · cases a.StateUpdate_ with
      | none => exact ⟨rfl, rfl⟩
      | some p =>
        simp only
        unfold Gregor1.StateUpdateMessage.Merge
        cases t2.StateUpdate_ with
        | none => exact ⟨rfl, rfl⟩
        | some p2 =>
          simp only
          split
          · exact ⟨rfl, rfl⟩
          · exact mergeDismissals_frame h _ p2

theorem msgIDOf_congr {h h' : Gregor1.Heap} (e : Gregor1.InBandMessage)
    (hu : ∀ p, e.StateUpdate_ = some p → h'.updates p = h.updates p)
    (hs : ∀ q, e.StateSync_ = some q → h'.syncs q = h.syncs q) :
    msgIDOf h' e = msgIDOf h e := by
  unfold msgIDOf Gregor1.InBandMessage.Metadata
  cases hp : e.StateUpdate_ with
  | some p => simp only [hu p hp]
  | none =>
    cases hq : e.StateSync_ with
    | some q => simp only [hs q hq]
    | none => rfl

/-- A message that `rowToInBandMessage` builds sits at the address `a`, has the MsgID of
the row, and leaves the messages at the other addresses as they were. -/
theorem rowToInBandMessage_some {h h1 : Gregor1.Heap} {a : Nat} {u : UID} {row : LogRow}
    {ibm : Gregor1.InBandMessage} (hr : rowToInBandMessage h a u row = (h1, some ibm)) :
    msgIDOf h1 ibm = some row.msgid ∧
      (∀ p, ibm.StateUpdate_ = some p → p = a) ∧ (∀ q, ibm.StateSync_ = some q → q = a) ∧
      (∀ p, p ≠ a → h1.updates p = h.updates p) ∧ (∀ q, q ≠ a → h1.syncs q = h.syncs q) := by
  unfold rowToInBandMessage at hr
  cases hc : row.category with
  | some c =>
    simp only [hc, MakeInBandMessageFromItem, Prod.mk.injEq, Option.some.injEq] at hr
    obtain ⟨rfl, rfl⟩ := hr
    refine ⟨?_, ?_, ?_, ?_, ?_⟩
    · simp [msgIDOf, Gregor1.InBandMessage.Metadata, makeMetadata]
    · intro p hp
      simpa using hp.symm
    · intro q hq
      simp at hq
    · intro p hp
      simp [Function.update_noteq hp]
    · intro q _
      rfl
  | none =>
    simp only [hc] at hr
    have hid : ∀ r : Gregor1.Heap × Gregor1.InBandMessage,
        (r = MakeDismissalByID h a u row.msgid row.devid row.ctime (row.dMsgID.getD []) ∨
          (∃ dc dt, r = MakeDismissalByRange h a u row.msgid row.devid row.ctime dc dt) ∨
          r = MakeStateSyncMessage h a u row.msgid row.devid row.ctime) →
        msgIDOf r.1 r.2 = some row.msgid ∧
          (∀ p, r.2.StateUpdate_ = some p → p = a) ∧ (∀ q, r.2.StateSync_ = some q → q = a) ∧
          (∀ p, p ≠ a → r.1.updates p = h.updates p) ∧
          (∀ q, q ≠ a → r.1.syncs q = h.syncs q) := by
      rintro r (rfl | ⟨dc, dt, rfl⟩ | rfl)
      · refine ⟨?_, ?_, ?_, ?_, ?_⟩
        · simp [msgIDOf, Gregor1.InBandMessage.Metadata, makeMetadata, MakeDismissalByID]
        · intro p hp
          simpa [MakeDismissalByID] using hp.symm
        · intro q hq
          simp [MakeDismissalByID] at hq
        · intro p hp
          simp [MakeDismissalByID, Function.update_noteq hp]
        · intro q _
          rfl
      · refine ⟨?_, ?_, ?_, ?_, ?_⟩
        · simp [msgIDOf, Gregor1.InBandMessage.Metadata, makeMetadata, MakeDismissalByRange]
        · intro p hp
          simpa [MakeDismissalByRange] using hp.symm
        · intro q hq
          simp [MakeDismissalByRange] at hq
        · intro p hp
          simp [MakeDismissalByRange, Function.update_noteq hp]
        · intro q _
          rfl
      · refine ⟨?_, ?_, ?_, ?_, ?_⟩
        · simp [msgIDOf, Gregor1.InBandMessage.Metadata, makeMetadata, MakeStateSyncMessage]
        · intro p hp
          simp [MakeStateSyncMessage] at hp
        · intro q hq
          simpa [MakeStateSyncMessage] using hq.symm
        · intro p _
          rfl
        · intro q hq
          simp [MakeStateSyncMessage, Function.update_noteq hq]
    cases hdc : row.dCategory with
    | some dc =>
      cases hdt : row.dTime with
      | some dt =>
        simp only [hdc, hdt, Prod.mk.injEq, Option.some.injEq] at hr
        have := hid (h1, ibm) (Or.inr (Or.inl ⟨dc, dt, by rw [← hr.1, ← hr.2]⟩))
        exact this
      | none =>
        simp only [hdc, hdt] at hr
        cases hdm : row.dMsgID with
        | some dm =>
          simp only [hdm, Prod.mk.injEq, Option.some.injEq] at hr
          exact hid (h1, ibm) (Or.inl (by rw [← hr.1, ← hr.2, hdm]; rfl))
        | none =>
          simp only [hdm] at hr
          split at hr
          · simp only [Prod.mk.injEq, Option.some.injEq] at hr
            exact hid (h1, ibm) (Or.inr (Or.inr (by rw [← hr.1, ← hr.2])))
          · simp at hr
    | none =>
      simp only [hdc] at hr
      cases hdm : row.dMsgID with
      | some dm =>
        simp only [hdm, Prod.mk.injEq, Option.some.injEq] at hr
        exact hid (h1, ibm) (Or.inl (by rw [← hr.1, ← hr.2, hdm]; rfl))
      | none =>
        simp only [hdm] at hr
        split at hr
        · simp only [Prod.mk.injEq, Option.some.injEq] at hr
          exact hid (h1, ibm) (Or.inr (Or.inr (by rw [← hr.1, ← hr.2])))
        · simp at hr

theorem lookup_cons_eq {k k' : String} {v : Gregor1.InBandMessage}
    {l : List (String × Gregor1.InBandMessage)} :
    List.lookup k ((k', v) :: l) = if k = k' then some v else List.lookup k l := by
  by_cases h : k = k'
  · subst h
    simp [List.lookup]
  · have : (k == k') = false := by simpa using h
    simp [List.lookup, this, h]

theorem hexOf_congr {h h' : Gregor1.Heap} (e : Gregor1.InBandMessage)
    (hu : ∀ p, e.StateUpdate_ = some p → h'.updates p = h.updates p)
    (hs : ∀ q, e.StateSync_ = some q → h'.syncs q = h.syncs q) :
    hexOf h' e = hexOf h e := by
  unfold hexOf
  rw [msgIDOf_congr e hu hs]

/-- One turn of the loop keeps the invariant; a row with a key seen before is merged
into the entry with that key and a row with a new key is appended. -/
theorem logStep_inv {u : UID} {st st' : LogState} {seen : List String} {row : LogRow}
    (hinv : LogInv st seen) (hs : logStep u st row = .ok st') :
    LogInv st' (seen ++ [hexEnc row.msgid]) ∧
    (hexEnc row.msgid ∈ seen → st'.ret = st.ret ∧
      ∃ e ∈ st.ret, hexOf st.heap e = some (hexEnc row.msgid) ∧
      ∃ ibm h1, rowToInBandMessage st.heap st.next u row = (h1, some ibm) ∧
        e.Merge h1 (.gregor1 ibm) = (st'.heap, .returned none)) ∧
    (hexEnc row.msgid ∉ seen →
      ∃ ibm h1, rowToInBandMessage st.heap st.next u row = (h1, some ibm) ∧
      st'.ret = st.ret ++ [ibm] ∧ st'.heap = h1) := by
  unfold logStep at hs
  cases hr : rowToInBandMessage st.heap st.next u row with
  | mk h1 o =>
    cases o with
    | none => simp [hr] at hs
    | some ibm =>
      simp only [hr] at hs
      obtain ⟨hid, hpu, hps, hfu, hfs⟩ := rowToInBandMessage_some hr
      have hmd : ∃ md, ibm.Metadata h1 = some md ∧ md.MsgID_ = row.msgid := by
        unfold msgIDOf at hid
        cases hm : ibm.Metadata h1 with
        | none => simp [hm] at hid
        | some md => exact ⟨md, rfl, by simpa [hm] using hid⟩
      obtain ⟨md, hmd1, hmd2⟩ := hmd
      simp only [hmd1, hmd2] at hs
      have hkey : hexOf h1 ibm = some (hexEnc row.msgid) := by
        unfold hexOf
        rw [hid]
        rfl
      -- messages already in `ret` are not touched by the allocation
      have hold : ∀ e ∈ st.ret, hexOf h1 e = hexOf st.heap e := by
        intro e he
        obtain ⟨b1, b2⟩ := hinv.below e he
        exact hexOf_congr e (fun p hp => hfu p (Nat.ne_of_lt (b1 p hp)))
          (fun q hq => hfs q (Nat.ne_of_lt (b2 q hq)))
      cases hl : st.lookup.lookup (hexEnc row.msgid) with
      | some ibm2 =>
        simp only [hl] at hs
        obtain ⟨hmem, hk⟩ := hinv.lookup_some _ _ hl
        have hseen : hexEnc row.msgid ∈ seen := by
          rw [← mem_firstOccurrences]
          have : some (hexEnc row.msgid) ∈ (firstOccurrences seen).map some := by
            rw [← hinv.ret_ids, ← hk]
            exact List.mem_map_of_mem _ hmem
          simpa using this
        cases hm : ibm2.Merge h1 (.gregor1 ibm) with
        | mk h2 res =>
          cases res with
          | panic => simp [hm] at hs
          | returned err =>
            cases err with
            | some e => simp [hm] at hs
            | none =>
              simp only [hm, Result.ok.injEq] at hs
              subst hs
              have hf := Merge_frame h1 ibm2 (.gregor1 ibm)
              rw [hm] at hf
              have hall : ∀ e, hexOf h2 e = hexOf h1 e := fun e =>
                hexOf_congr e (fun p _ => by rw [hf.1]) (fun q _ => by rw [hf.2])
              refine ⟨⟨?_, ?_, ?_, ?_⟩, ?_, ?_⟩
              · simp only [firstOccurrences_append_singleton, hseen, if_true]
                rw [← hinv.ret_ids]
                apply List.map_congr_left
                intro e he
                rw [hall, hold e he]
              · intro k e hke
                obtain ⟨h1', h2'⟩ := hinv.lookup_some k e hke
                exact ⟨h1', by rw [hall, hold e h1', h2']⟩
              · intro k hkn
                simp only [List.mem_append, List.mem_singleton, not_or]
                refine ⟨hinv.lookup_none k hkn, ?_⟩
                rintro rfl
                simp [hl] at hkn
              · intro e he
                obtain ⟨b1, b2⟩ := hinv.below e he
                exact ⟨fun p hp => Nat.lt_succ_of_lt (b1 p hp),
                  fun q hq => Nat.lt_succ_of_lt (b2 q hq)⟩
              · intro _
                exact ⟨rfl, ibm2, hmem, hk, ibm, h1, rfl, hm⟩
              · intro hn
                exact absurd hseen hn
      | none =>
        simp only [hl, Result.ok.injEq] at hs
        subst hs
        have hns : hexEnc row.msgid ∉ seen := hinv.lookup_none _ hl
        refine ⟨⟨?_, ?_, ?_, ?_⟩, ?_, ?_⟩
        · simp only [firstOccurrences_append_singleton, hns, if_false, List.map_append,
            List.map_cons, List.map_nil, hkey]
          congr 1
          rw [← hinv.ret_ids]
          apply List.map_congr_left
          intro e he
          exact hold e he
        · intro k e hke
          rw [lookup_cons_eq] at hke
          by_cases hk : k = hexEnc row.msgid
          · simp only [hk, if_true, Option.some.injEq] at hke
            subst hke
            subst hk
            exact ⟨by simp, hkey⟩
          · simp only [hk, if_false] at hke
            obtain ⟨h1', h2'⟩ := hinv.lookup_some k e hke
            exact ⟨List.mem_append_left _ h1', by rw [hold e h1', h2']⟩
        · intro k hkn
          rw [lookup_cons_eq] at hkn
          by_cases hk : k = hexEnc row.msgid
          · simp [hk] at hkn
          · simp only [hk, if_false] at hkn
            simp only [List.mem_append, List.mem_singleton, not_or]
            exact ⟨hinv.lookup_none k hkn, hk⟩
        · intro e he
          rw [List.mem_append, List.mem_singleton] at he
          rcases he with he | he
          · obtain ⟨b1, b2⟩ := hinv.below e he
            exact ⟨fun p hp => Nat.lt_succ_of_lt (b1 p hp),
              fun q hq => Nat.lt_succ_of_lt (b2 q hq)⟩
          · subst he
            exact ⟨fun p hp => by rw [hpu p hp]; exact Nat.lt_succ_self _,
              fun q hq => by rw [hps q hq]; exact Nat.lt_succ_self _⟩
        · intro hseen
          exact absurd hseen hns
        · intro _
          exact ⟨ibm, h1, rfl, rfl, rfl⟩

theorem logLoop_inv {u : UID} (rows : List LogRow) {st st' : LogState} {seen : List String}
    (hinv : LogInv st seen) (hs : logLoop u st rows = .ok st') :
    LogInv st' (seen ++ rows.map (fun r => hexEnc r.msgid)) := by
  induction rows generalizing st seen with
  | nil =>
    simp only [logLoop, Result.ok.injEq] at hs
    subst hs
    simpa using hinv
  | cons row rest ih =>
    simp only [logLoop] at hs
    cases h1 : logStep u st row with
    | err e => simp [h1] at hs
    | panic => simp [h1] at hs
    | ok st1 =>
      simp only [h1] at hs
      have := ih (logStep_inv hinv h1).1 hs
      simpa using this

theorem logLoop_append {u : UID} (l1 l2 : List LogRow) (st : LogState) :
    logLoop u st (l1 ++ l2) =
      match logLoop u st l1 with
      | .ok st1 => logLoop u st1 l2
      | .err e => .err e
      | .panic => .panic := by
  induction l1 generalizing st with
  | nil => rfl
  | cons row rest ih =>
    simp only [List.cons_append, logLoop]
    cases logStep u st row with
    | ok st1 => exact ih st1
    | err e => rfl
    | panic => rfl

theorem logInv_init (h : Gregor1.Heap) (a : Nat) : LogInv ⟨h, a, [], []⟩ [] where
  ret_ids := rfl
  lookup_some := by
    intro k e hke
    simp [List.lookup] at hke
  lookup_none := by
    intro k _
    simp
  below := by
    intro e he
    simp at he

theorem digitChar_inj :
    ∀ i j : Fin 16, Nat.digitChar i.val = Nat.digitChar j.val → i = j := by
  decide

/-- The encoding `hex.EncodeToString` is injective on byte strings. -/
theorem hexEncodeToString_inj {a b : Bytes} (ha : ∀ x ∈ a, x < 256) (hb : ∀ x ∈ b, x < 256)
    (h : hexEncodeToString a = hexEncodeToString b) : a = b := by
  unfold hexEncodeToString at h
  have h2 := congrArg String.data h
  simp only at h2
  clear h
  induction a generalizing b with
  | nil =>
    cases b with
    | nil => rfl
    | cons y b => simp at h2
  | cons x a ih =>
    cases b with
    | nil => simp at h2
    | cons y b =>
      simp only [List.flatMap_cons, List.cons_append, List.nil_append, List.cons.injEq] at h2
      obtain ⟨e1, e2, e3⟩ := h2
      have hx : x < 256 := ha x (by simp)
      have hy : y < 256 := hb y (by simp)
      have d1 := digitChar_inj ⟨x / 16 % 16, Nat.mod_lt _ (by decide)⟩
        ⟨y / 16 % 16, Nat.mod_lt _ (by decide)⟩ e1
      have d2 := digitChar_inj ⟨x % 16, Nat.mod_lt _ (by decide)⟩
        ⟨y % 16, Nat.mod_lt _ (by decide)⟩ e2
      simp only [Fin.mk.injEq] at d1 d2
      have hxy : x = y := by omega
      rw [hxy, ih (fun z hz => ha z (List.mem_cons_of_mem _ hz))
        (fun z hz => hb z (List.mem_cons_of_mem _ hz)) e3]

/-- One turn of the loop only appends to `ret`. -/
theorem logStep_ret_grows {u : UID} {st st' : LogState} {seen : List String} {row : LogRow}
    (hinv : LogInv st seen) (hs : logStep u st row = .ok st') :
    ∃ t, st'.ret = st.ret ++ t := by
  obtain ⟨_, h2, h3⟩ := logStep_inv hinv hs
  by_cases hk : hexEnc row.msgid ∈ seen
  · exact ⟨[], by rw [(h2 hk).1, List.append_nil]⟩
  · obtain ⟨ibm, h1, _, e, _⟩ := h3 hk
    exact ⟨[ibm], e⟩

theorem logLoop_ret_grows {u : UID} (rows : List LogRow) {st st' : LogState}
    {seen : List String} (hinv : LogInv st seen) (hs : logLoop u st rows = .ok st') :
    ∃ t, st'.ret = st.ret ++ t := by
  induction rows generalizing st seen with
  | nil =>
    simp only [logLoop, Result.ok.injEq] at hs
    subst hs
    exact ⟨[], by rw [List.append_nil]⟩
  | cons row rest ih =>
    simp only [logLoop] at hs
    cases h1 : logStep u st row with
    | err e => simp [h1] at hs
    | panic => simp [h1] at hs
    | ok st1 =>
      simp only [h1] at hs
      obtain ⟨t1, e1⟩ := logStep_ret_grows hinv h1
      obtain ⟨t2, e2⟩ := ih (logStep_inv hinv h1).1 hs
      exact ⟨t1 ++ t2, by rw [e2, e1, List.append_assoc]⟩

/-- C11: whenever the loop of `InBandMessagesSince` gets through a sequence of joined rows
without an error, with `st.ret` the list it has built: that list is what the call returns
when the rows are those of its query; no two messages of the list have the same key
`hexEnc(MsgID)`; the keys of the list are the keys of the rows, each once, in the order in
which they first occur among the rows (`firstOccurrences`, which has no key twice, has
exactly the keys of the rows, and puts a key before another when its first row comes
first); the length of the list is the number of distinct keys of the rows, which is the
number of distinct MsgIDs when the ids are made of bytes; and at every row, after the rows
`pre` before it, a key that occurs in `pre` leaves the list as it is and the row is merged by
`Merge`, with nil returned, into the entry of the list that has this key, while a new key
appends the message of the row; what is in the list then stays in it to the end. -/
theorem C11_log_dedup (u : UID) (h : Gregor1.Heap) (a : Nat) (rows : List LogRow)
    (st : LogState) (hs : logLoop u ⟨h, a, [], []⟩ rows = .ok st) :
    (∀ stw now s d t, rows = logRows stw now s u d t →
      InBandMessagesSince stw now s h a u d t = .ok (st.heap, st.ret)) ∧
    (st.ret.map (hexOf st.heap)).Nodup ∧
    st.ret.map (hexOf st.heap) =
      (firstOccurrences (rows.map (fun r => hexEnc r.msgid))).map some ∧
    (firstOccurrences (rows.map (fun r => hexEnc r.msgid))).Nodup ∧
    (∀ k, k ∈ firstOccurrences (rows.map (fun r => hexEnc r.msgid)) ↔
      k ∈ rows.map (fun r => hexEnc r.msgid)) ∧
    (firstOccurrences (rows.map (fun r => hexEnc r.msgid))).Pairwise
      (fun x y => (rows.map (fun r => hexEnc r.msgid)).indexOf x <
        (rows.map (fun r => hexEnc r.msgid)).indexOf y) ∧
    st.ret.length = (rows.map (fun r => hexEnc r.msgid)).toFinset.card ∧
    ((∀ r ∈ rows, ∀ x ∈ r.msgid, x < 256) →
      st.ret.length = (rows.map (fun r => r.msgid)).toFinset.card) ∧
    (∀ pre r post, rows = pre ++ r :: post →
      ∃ st1 st2, logLoop u ⟨h, a, [], []⟩ pre = .ok st1 ∧ logStep u st1 r = .ok st2 ∧
        logLoop u st2 post = .ok st ∧ (∃ t, st.ret = st2.ret ++ t) ∧
        (hexEnc r.msgid ∈ pre.map (fun r => hexEnc r.msgid) →
          st2.ret = st1.ret ∧
          ∃ e ∈ st1.ret, hexOf st1.heap e = some (hexEnc r.msgid) ∧
            ∃ ibm h1, rowToInBandMessage st1.heap st1.next u r = (h1, some ibm) ∧
              e.Merge h1 (.gregor1 ibm) = (st2.heap, .returned none)) ∧
        (hexEnc r.msgid ∉ pre.map (fun r => hexEnc r.msgid) →
          ∃ ibm h1, rowToInBandMessage st1.heap st1.next u r = (h1, some ibm) ∧
            st2.ret = st1.ret ++ [ibm] ∧ st2.heap = h1)) := by
  have hinv := logLoop_inv rows (logInv_init h a) hs
  simp only [List.nil_append] at hinv
  have hlen : st.ret.length = (rows.map (fun r => hexEnc r.msgid)).toFinset.card := by
    rw [← length_firstOccurrences, ← List.length_map st.ret (hexOf st.heap), hinv.ret_ids,
      List.length_map]
  refine ⟨?_, ?_, hinv.ret_ids, nodup_firstOccurrences _, mem_firstOccurrences _,
    pairwise_firstOccurrences _, hlen, ?_, ?_⟩
  · intro stw now s d t hrows
    unfold InBandMessagesSince
    rw [← hrows, hs]
  · rw [hinv.ret_ids]
    exact (nodup_firstOccurrences _).map (Option.some_injective _)
  · intro hb
    rw [hlen]
    have e1 : rows.map (fun r => hexEnc r.msgid) =
        (rows.map (fun r => r.msgid)).map hexEnc := by
      rw [List.map_map]
      rfl
    have e2 : ((rows.map (fun r => r.msgid)).map hexEnc).toFinset =
        (rows.map (fun r => r.msgid)).toFinset.image hexEnc := by
      ext k
      simp
    rw [e1, e2]
    apply Finset.card_image_of_injOn
    intro x hx y hy e
    simp only [List.coe_toFinset, Set.mem_setOf_eq, List.mem_map] at hx hy
    obtain ⟨rx, hrx, rfl⟩ := hx
    obtain ⟨ry, hry, rfl⟩ := hy
    exact hexEncodeToString_inj (hb rx hrx) (hb ry hry) e
  · intro pre r post hrows
    subst hrows
    have happ := logLoop_append (u := u) pre (r :: post) ⟨h, a, [], []⟩
    rw [hs] at happ
    cases h1 : logLoop u ⟨h, a, [], []⟩ pre with
    | err e => simp [h1] at happ
    | panic => simp [h1] at happ
    | ok st1 =>
      simp only [h1, logLoop] at happ
      cases h2 : logStep u st1 r with
      | err e => simp [h2] at happ
      | panic => simp [h2] at happ
      | ok st2 =>
        simp only [h2] at happ
        have hinv1 := logLoop_inv pre (logInv_init h a) h1
        simp only [List.nil_append] at hinv1
        obtain ⟨hinv2, hm, hn⟩ := logStep_inv hinv1 h2
        exact ⟨st1, st2, rfl, h2, happ.symm, logLoop_ret_grows post hinv2 happ.symm, hm, hn⟩

/-- C11, witness: the loop gets through the three rows of `exLogRows`, two of the message
`[8]` and one of the message `[9]`, and returns two messages, as many as the rows have
keys. -/
theorem C11_log_dedup_witness :
    ∃ st, logLoop [1] ⟨Gregor1.zeroHeap, 0, [], []⟩ exLogRows = .ok st ∧
      st.ret.length = (exLogRows.map (fun r => hexEnc r.msgid)).toFinset.card ∧
      (exLogRows.map (fun r => hexEnc r.msgid)).toFinset.card = 2 :=
  ⟨_, rfl, (C11_log_dedup [1] Gregor1.zeroHeap 0 exLogRows _ rfl).2.2.2.2.2.2.1, by decide⟩

end Gregor

/-! ## The claims on the gregor1 accessors -/

namespace Gregor1

theorem State_Items_eq (s : State) : s.Items = s.items := by
  unfold State.Items
  have : ∀ (l acc : List ItemAndMetadata),
      l.foldl (fun ret i => ret ++ [i]) acc = acc ++ l := by
    intro l
    induction l with
    | nil => intro acc; simp
    | cons x l ih => intro acc; simp [ih]
  simpa using this s.items []

theorem itemsInCategoryLoop_eq (h : Heap) (c : String) (l ret : List ItemAndMetadata)
    (hi : ∀ e ∈ l, e.i ≠ none) :
    itemsInCategoryLoop h c l ret =
      .ok (ret ++ l.filter (fun e => decide (e.Category h = .ok c))) := by
  induction l generalizing ret with
  | nil => simp [itemsInCategoryLoop]
  | cons x l ih =>
    have hx : x.i ≠ none := hi x (by simp)
    have hl : ∀ e ∈ l, e.i ≠ none := fun e he => hi e (List.mem_cons_of_mem _ he)
    cases hp : x.i with
    | none => exact absurd hp hx
    | some p =>
      by_cases hc : (h.items p).Category_ = c
      · simp [itemsInCategoryLoop, ItemAndMetadata.InCategory, ItemAndMetadata.Category, hp,
          Category.Eq, hc, ih _ hl, List.filter_cons]
      · simp [itemsInCategoryLoop, ItemAndMetadata.InCategory, ItemAndMetadata.Category, hp,
          Category.Eq, hc, ih _ hl, List.filter_cons]

/-- C12, counterexample.  The State `exStateNil` holds one item, the one that `Creation()`
returns for the update 0 of `exHeap`, whose `*Item` is nil.  `Items()` returns that item,
and `ItemsInCategory("foos")` dereferences the nil pointer in `InCategory`: it does not
return `Items()` filtered on the category. -/
theorem C12_counterexample :
    (exHeap.updates 0).Creation = some ⟨some (exMd 8), none⟩ ∧
    exStateNil.Items = [⟨some (exMd 8), none⟩] ∧
    ItemAndMetadata.InCategory exHeap ⟨some (exMd 8), none⟩ "foos" = .panic ∧
    exStateNil.ItemsInCategory exHeap "foos" = .panic ∧
    ¬ ∀ (h : Heap) (s : State) (c : String),
      s.ItemsInCategory h c =
        .ok (s.Items.filter (fun e => decide (e.Category h = .ok c))) := by
  refine ⟨by decide, by decide, by decide, by decide, ?_⟩
  intro h
  have h1 := h exHeap exStateNil "foos"
  revert h1
  decide

/-- C12 (amended): for every State whose items each hold their Item, and every category `c`,
`ItemsInCategory(c)` returns the items of `Items()` whose category string is the string of
`c`, in the same order; this is a sub-sequence of `Items()`; and the results for two
different categories have no item in common. -/
theorem C12_items_in_category (h : Heap) (s : State) (c : String)
    (hi : ∀ e ∈ s.items, e.i ≠ none) :
    s.ItemsInCategory h c = .ok (s.Items.filter (fun e => decide (e.Category h = .ok c))) ∧
    (s.Items.filter (fun e => decide (e.Category h = .ok c))).Sublist s.Items ∧
    ∀ c2 l l2, c ≠ c2 → s.ItemsInCategory h c = .ok l → s.ItemsInCategory h c2 = .ok l2 →
      ∀ e ∈ l, e ∉ l2 := by
  have key : ∀ c, s.ItemsInCategory h c =
      .ok (s.Items.filter (fun e => decide (e.Category h = .ok c))) := by
    intro c
    unfold State.ItemsInCategory
    rw [itemsInCategoryLoop_eq h c s.items [] hi, State_Items_eq]
    rfl
  refine ⟨key c, List.filter_sublist _, ?_⟩
  intro c2 l l2 hne h1 h2 e he he2
  rw [key c] at h1
  rw [key c2] at h2
  cases h1
  cases h2
  simp only [List.mem_filter, decide_eq_true_eq] at he he2
  rw [he.2] at he2
  exact hne (Gregor.Result.ok.inj he2.2)

/-- C12, witness: of the three items of `exState`, of categories foos, bars and foos,
`ItemsInCategory("foos")` returns the first and the third. -/
theorem C12_items_in_category_witness :
    (∀ e ∈ exState.items, e.i ≠ none) ∧
    exState.ItemsInCategory exHeapItems "foos" =
      .ok [⟨some (exMd 7), some 0⟩, ⟨some (exMd 9), some 0⟩] ∧
    exState.ItemsInCategory exHeapItems "foos" =
      .ok (exState.Items.filter (fun e => decide (e.Category exHeapItems = .ok "foos"))) :=
  ⟨by decide, by decide, (C12_items_in_category exHeapItems exState "foos" (by decide)).1⟩

/-- C13, counterexample: the TimeOrOffset with `Time_ = 5` and `Offset_ = 7` has a non-nil
`Time()` and a non-nil `Offset()`, so it is not true that the two are never both
non-nil. -/
theorem C13_counterexample :
    (⟨5, 7⟩ : TimeOrOffset).Time = some 5 ∧
    (⟨5, 7⟩ : TimeOrOffset).Offset = some 7000000 ∧
    ¬ ∀ t : TimeOrOffset, ¬ (t.Time ≠ none ∧ t.Offset ≠ none) :=
  ⟨by decide, by decide, fun h => h ⟨5, 7⟩ (by decide)⟩

/-- C13, amended: for every TimeOrOffset in which at most one of the fields `Time_` and
`Offset_` is set, `Time()` and `Offset()` are not both non-nil; `Time()` is non-nil exactly
when `Time_` is set and `Offset()` exactly when `Offset_` is. -/
theorem C13_at_most_one_field (t : TimeOrOffset) (h : t.Time_ = 0 ∨ t.Offset_ = 0) :
    ¬ (t.Time ≠ none ∧ t.Offset ≠ none) ∧
    (t.Time ≠ none ↔ t.Time_ ≠ 0) ∧ (t.Offset ≠ none ↔ t.Offset_ ≠ 0) := by
  have h1 : t.Time ≠ none ↔ t.Time_ ≠ 0 := by
    unfold TimeOrOffset.Time
    split <;> simp_all
  have h2 : t.Offset ≠ none ↔ t.Offset_ ≠ 0 := by
    unfold TimeOrOffset.Offset
    split <;> simp_all
  refine ⟨?_, h1, h2⟩
  rintro ⟨a, b⟩
  rcases h with h | h
  · exact (h1.1 a) h
  · exact (h2.1 b) h

/-- C13, witness: the TimeOrOffset with `Time_ = 5` and no offset is the instant 5 and has
a nil `Offset()`. -/
theorem C13_at_most_one_field_witness :
    ((5 : Gregor.Time) = 0 ∨ (0 : Int) = 0) ∧
    ¬ ((⟨5, 0⟩ : TimeOrOffset).Time ≠ none ∧ (⟨5, 0⟩ : TimeOrOffset).Offset ≠ none) ∧
    (⟨5, 0⟩ : TimeOrOffset).Time = some 5 ∧ (⟨5, 0⟩ : TimeOrOffset).Offset = none :=
  ⟨Or.inr rfl, (C13_at_most_one_field ⟨5, 0⟩ (Or.inr rfl)).1, by decide, by decide⟩

/-- C14, the code at the failing input.  Both accessors test their field the wrong way
round: for every StateUpdateMessage, `Creation()` is non-nil exactly when the message
carries no creation and `Dismissal()` exactly when it carries no dismissal.  The update 3
of `exHeap` carries the creation 0 and the dismissal 1, and both accessors return nil.  The
update 0 carries neither: `Creation()` returns an Item with a nil `*Item`, whose
`Category()`, `Body()` and `DTime()` dereference nil, and `Dismissal()` returns an interface
that holds a nil `*Dismissal`, whose `MsgIDsToDismiss()` and `RangesToDismiss()`
dereference nil. -/
theorem C14_accessors_inverted :
    (∀ s : StateUpdateMessage, (s.Creation ≠ none ↔ s.Creation_ = none) ∧
      (s.Dismissal ≠ none ↔ s.Dismissal_ = none)) ∧
    (exHeap.updates 3).Creation_ = some 0 ∧ (exHeap.updates 3).Creation = none ∧
    (exHeap.updates 3).Dismissal_ = some 1 ∧ (exHeap.updates 3).Dismissal = none ∧
    (exHeap.updates 0).Creation_ = none ∧
    (exHeap.updates 0).Creation = some ⟨some (exMd 8), none⟩ ∧
    ItemAndMetadata.Category exHeap ⟨some (exMd 8), none⟩ = .panic ∧
    ItemAndMetadata.Body exHeap ⟨some (exMd 8), none⟩ = .panic ∧
    ItemAndMetadata.DTime exHeap ⟨some (exMd 8), none⟩ = .panic ∧
    (exHeap.updates 0).Dismissal_ = none ∧
    (exHeap.updates 0).Dismissal = some none ∧
    Dismissal.MsgIDsToDismiss exHeap none = .panic ∧
    Dismissal.RangesToDismiss exHeap none = .panic := by
  refine ⟨?_, by decide, by decide, by decide, by decide, by decide, by decide, by decide,
    by decide, by decide, by decide, by decide, by decide, by decide⟩
  intro s
  unfold StateUpdateMessage.Creation StateUpdateMessage.Dismissal
  constructor
  · split <;> simp_all
  · split <;> simp_all

end Gregor1

/-! ## The log query on what the consume protocol stored -/

namespace Gregor

/-- C15, the code at the failing input.  The update `exBareUpdate` of user `[1]`, which
carries neither a creation nor a dismissal, is consumed into the empty store with nil
returned and leaves one row in `messages`.  The query of `InBandMessagesSince` then has one
row, with mtype Update and NULL in every item and dismissal column; `rowToInBandMessage`
returns `nil, nil` for it, and the loop dereferences the nil message. -/
theorem C15_nil_message_dereferenced :
    ConsumeMessage specTimeWriter ⟨5, none, none⟩ Store.empty (updateMessage exBareUpdate) =
      (exStoreNoItem, .ok ()) ∧
    logRows specTimeWriter 6 exStoreNoItem [1] none (some ⟨some 0, none⟩) =
      [⟨[7], none, 1, InBandMsgTypeUpdate, none, none, none, none, none⟩] ∧
    (∀ h a, rowToInBandMessage h a [1]
      ⟨[7], none, 1, InBandMsgTypeUpdate, none, none, none, none, none⟩ = (h, none)) ∧
    (∀ h a, InBandMessagesSince specTimeWriter 6 exStoreNoItem h a [1] none
      (some ⟨some 0, none⟩) = .panic) := by
  refine ⟨by decide, by decide, fun h a => rfl, fun h a => ?_⟩
  have hr : logRows specTimeWriter 6 exStoreNoItem [1] none (some ⟨some 0, none⟩) =
      [⟨[7], none, 1, InBandMsgTypeUpdate, none, none, none, none, none⟩] := by decide
  unfold InBandMessagesSince
  rw [hr]
  rfl

end Gregor

namespace Gregor1

/-- C16, the code at the failing input.  In `exHeap` the update 2 carries the dismissal 0
and no creation, and the update 1 carries a creation and no dismissal.  `a.Merge(b)` with
`a` the update 2 and `b` the update 1 dereferences the nil dismissal of `b`, and so it does
with `b` the update 0, which carries nothing.  The other combinations return nil: a
dismissal only in `b`, in neither, and in both. -/
theorem C16_merge_nil_dismissal :
    (exHeap.updates 2).Creation_ = none ∧ (exHeap.updates 2).Dismissal_ = some 0 ∧
    (exHeap.updates 1).Creation_ = some 0 ∧ (exHeap.updates 1).Dismissal_ = none ∧
    (InBandMessage.Merge exHeap ⟨some 2, none⟩ (.gregor1 ⟨some 1, none⟩)).2 = .panic ∧
    (InBandMessage.Merge exHeap ⟨some 2, none⟩ (.gregor1 ⟨some 0, none⟩)).2 = .panic ∧
    (InBandMessage.Merge exHeap ⟨some 1, none⟩ (.gregor1 ⟨some 2, none⟩)).2 = .returned none ∧
    (InBandMessage.Merge exHeap ⟨some 0, none⟩ (.gregor1 ⟨some 1, none⟩)).2 = .returned none ∧
    (InBandMessage.Merge exHeap ⟨some 2, none⟩ (.gregor1 ⟨some 3, none⟩)).2 =
      .returned none := by
  decide

end Gregor1

namespace Gregor

/-- C17, the code at the failing input.  The update `[8]` of user `[1]` with ctime 5 and no
creation that dismisses the id `[7]` and the range (foos, 2) is consumed into the empty
store with nil returned.  `InBandMessagesSince([1], nil, 0)` then returns one message `[8]`
whose dismissal has the range and no id: the one joined row has both the range and the id,
and `rowToInBandMessage` takes the first case that matches.  With the ids `[7]` and `[9]`
there are two joined rows, and the message returned has no id and the range twice. -/
theorem C17_log_loses_ids :
    ConsumeMessage specTimeWriter ⟨5, none, none⟩ Store.empty
      (updateMessage (exMixedDismissal [[7]])) = (exStoreMixed [[7]], .ok ()) ∧
    logView (InBandMessagesSince specTimeWriter 6 (exStoreMixed [[7]]) Gregor1.zeroHeap 0 [1]
      none (some ⟨some 0, none⟩)) = .ok [(some [8], some ⟨[], [⟨⟨2, 0⟩, "foos"⟩]⟩)] ∧
    ConsumeMessage specTimeWriter ⟨5, none, none⟩ Store.empty
      (updateMessage (exMixedDismissal [[7], [9]])) = (exStoreMixed [[7], [9]], .ok ()) ∧
    logView (InBandMessagesSince specTimeWriter 6 (exStoreMixed [[7], [9]]) Gregor1.zeroHeap 0
      [1] none (some ⟨some 0, none⟩)) =
        .ok [(some [8], some ⟨[], [⟨⟨2, 0⟩, "foos"⟩, ⟨⟨2, 0⟩, "foos"⟩]⟩)] := by
  refine ⟨by decide, by decide, by decide, by decide⟩

end Gregor
